import Mathlib

/-!
Shallow embedding of the roster solver of this repository
(`backend/solver/roster_solver.py` and `backend/solver/utils.py`).

Modelling conventions:
* Python floats are modelled as rationals (`ℚ`); every numeric value the
  verified claims touch is an exact decimal, where float and rational
  arithmetic agree.
* ISO dates are modelled as ordinal day numbers (`Nat`): the solver only ever
  forms `week_start + timedelta(days=day_index)` and compares the formatted
  strings for equality, and that formatting is injective on dates.
* CP-SAT boolean decision variables are modelled as a valuation
  `x : Nat → String → Bool` of the `(employee_id, template_id)` keys of
  `RosterSolver.shift_vars`; a solver outcome with status OPTIMAL or FEASIBLE
  is a valuation satisfying every hard constraint the model builder adds.
* Python dict iteration order is insertion order; dict key sets built by
  repeated insertion are modelled with first-occurrence deduplication
  (`pydedup`).
-/

namespace Roster

/-! Executable rational arithmetic.  A `ℚ` is a reduced `num/den` pair; the
operations below are the field operations written out on those pairs (and
renormalised by `mkRat`), which lets every definition in this file evaluate
inside the kernel. -/

/-- Rational addition, `a.num/a.den + b.num/b.den`. -/
def qAdd (a b : ℚ) : ℚ := mkRat (a.num * b.den + b.num * a.den) (a.den * b.den)

/-- Rational subtraction. -/
def qSub (a b : ℚ) : ℚ := mkRat (a.num * b.den - b.num * a.den) (a.den * b.den)

/-- Rational multiplication. -/
def qMul (a b : ℚ) : ℚ := mkRat (a.num * b.num) (a.den * b.den)

/-- Rational comparison `a ≤ b` (denominators are positive). -/
def qLe (a b : ℚ) : Bool := decide (a.num * (b.den : ℤ) ≤ b.num * (a.den : ℤ))

/-- Rational comparison `a < b`. -/
def qLt (a b : ℚ) : Bool := decide (a.num * (b.den : ℤ) < b.num * (a.den : ℤ))

/-- Python `int(x)` truncation toward zero, on the rational model of a float. -/
def pythonInt (q : ℚ) : ℤ := Int.tdiv q.num (q.den : ℤ)

/-- Floor of a rational (positive denominator). -/
def qFloor (q : ℚ) : ℤ := Int.fdiv q.num (q.den : ℤ)

/-- Python `round(x, 2)`: round to two decimal places, ties to even
(exact-rational model of the float rounding used in `utils.py`). -/
def round2 (q : ℚ) : ℚ :=
  let s : ℚ := qMul q 100
  let f : ℤ := qFloor s
  let r : ℚ := qSub s (mkRat f 1)
  let n : ℤ :=
    if qLt r (mkRat 1 2) then f
    else if qLt (mkRat 1 2) r then f + 1
    else if f % 2 = 0 then f else f + 1
  mkRat n 100

/-- First-occurrence deduplication (helper): the key order of a Python dict
built by repeated insertion. -/
def pydedupAux [DecidableEq α] (seen : List α) : List α → List α
  | [] => []
  | a :: l => if a ∈ seen then pydedupAux seen l else a :: pydedupAux (a :: seen) l

/-- First-occurrence deduplication: the key list of a Python dict built by
inserting the elements of `l` in order. -/
def pydedup [DecidableEq α] (l : List α) : List α := pydedupAux [] l

theorem mem_pydedupAux [DecidableEq α] {a : α} :
    ∀ (seen : List α) (l : List α), a ∈ pydedupAux seen l ↔ (a ∈ l ∧ a ∉ seen) := by
  intro seen l
  induction l generalizing seen with
  | nil => simp [pydedupAux]
  | cons b l ih =>
    by_cases hb : b ∈ seen
    · simp only [pydedupAux, if_pos hb, ih, List.mem_cons]
      constructor
      · rintro ⟨h1, h2⟩; exact ⟨Or.inr h1, h2⟩
      · rintro ⟨h1 | h1, h2⟩
        · exact absurd (h1 ▸ hb) h2
        · exact ⟨h1, h2⟩
    · simp only [pydedupAux, if_neg hb, List.mem_cons, ih]
      constructor
      · rintro (rfl | ⟨h1, h2⟩)
        · exact ⟨Or.inl rfl, hb⟩
        · exact ⟨Or.inr h1, fun hs => h2 (Or.inr hs)⟩
      · rintro ⟨rfl | h1, h2⟩
        · exact Or.inl rfl
        · by_cases hab : a = b
          · exact Or.inl hab
          · exact Or.inr ⟨h1, by simp [List.mem_cons, hab, h2]⟩

theorem mem_pydedup [DecidableEq α] {a : α} {l : List α} :
    a ∈ pydedup l ↔ a ∈ l := by
  simp [pydedup, mem_pydedupAux]

theorem pydedupAux_nodup [DecidableEq α] :
    ∀ (seen : List α) (l : List α), (pydedupAux seen l).Nodup := by
  intro seen l
  induction l generalizing seen with
  | nil => simp [pydedupAux]
  | cons b l ih =>
    by_cases hb : b ∈ seen
    · simpa [pydedupAux, if_pos hb] using ih seen
    · simp only [pydedupAux, if_neg hb, List.nodup_cons]
      refine ⟨fun hmem => ?_, ih (b :: seen)⟩
      exact ((mem_pydedupAux (b :: seen) l).1 hmem).2 (List.mem_cons_self b seen)

theorem pydedup_nodup [DecidableEq α] (l : List α) : (pydedup l).Nodup :=
  pydedupAux_nodup [] l

/-! Executable string helpers: the library's `String` methods are opaque to
the kernel, so the handful of operations the source uses are written out on
the character lists underlying the strings. -/

/-- Split a character list at every occurrence of `sep`
(Python `str.split(sep)` on a single-character separator). -/
def splitOnChar (sep : Char) : List Char → List (List Char)
  | [] => [[]]
  | a :: rest =>
    match splitOnChar sep rest with
    | [] => if a = sep then [[], []] else [[a]]
    | h :: t => if a = sep then [] :: h :: t else (a :: h) :: t

/-- Parse a non-empty all-digit character list (the behaviour of Python
`int` on the well-formed numeric strings the solver handles). -/
def digitsToNat (cs : List Char) : Option Nat :=
  if cs ≠ [] ∧ cs.all (·.isDigit) then
    some (cs.foldl (fun acc c => acc * 10 + (c.toNat - '0'.toNat)) 0)
  else none

/-- Decimal digits of a natural number, most significant first
(structured on an explicit fuel so it evaluates in the kernel). -/
def natToCharsAux : Nat → Nat → List Char
  | 0, _ => []
  | fuel + 1, n =>
    if n < 10 then [Char.ofNat (48 + n)]
    else natToCharsAux fuel (n / 10) ++ [Char.ofNat (48 + n % 10)]

def natToChars (n : Nat) : List Char := natToCharsAux (n + 1) n

/-- Decimal rendering of a natural number (Python `str`/f-string). -/
def natToString (n : Nat) : String := String.mk (natToChars n)

/-- Decimal rendering of an integer. -/
def intToString (i : ℤ) : String :=
  if i < 0 then String.mk ('-' :: natToChars i.natAbs) else natToString i.toNat

/-- Python `str.lower()`. -/
def toLowerStr (s : String) : String := String.mk (s.data.map Char.toLower)

/-- Python `str.upper()`. -/
def toUpperStr (s : String) : String := String.mk (s.data.map Char.toUpper)

/-- Python `str.strip()`. -/
def stripStr (s : String) : String :=
  String.mk (((s.data.dropWhile (·.isWhitespace)).reverse.dropWhile
    (·.isWhitespace)).reverse)

/-- Whether `pat` is a leading segment of `cs` (Python `str.startswith`). -/
def leadingMatch : List Char → List Char → Bool
  | [], _ => true
  | _ :: _, [] => false
  | p :: ps, c :: cs => p == c && leadingMatch ps cs

/-- Python `f"{n:02d}"`: decimal rendering zero-padded to width two. -/
def pad2 (n : ℤ) : String :=
  if 0 ≤ n ∧ n < 10 then String.mk ('0' :: natToChars n.toNat) else intToString n

/-- `roster_solver.parse_time`: `HH:MM` to minutes since midnight.  Malformed
times raise in Python and never reach the solver; the claims only involve
well-formed times, on which the translation is exact. -/
def parseTime (s : String) : ℤ :=
  if s = "" then 0
  else
    match splitOnChar ':' s.data with
    | h :: m :: _ => ((digitsToNat h).getD 0 : ℤ) * 60 + ((digitsToNat m).getD 0 : ℤ)
    | _ => 0

/-- `roster_solver.format_time`: minutes since midnight to `HH:MM`
(Python floor division and modulo). -/
def formatTime (m : ℤ) : String :=
  pad2 (Int.fdiv m 60) ++ ":" ++ pad2 (Int.emod m 60)

/-- `roster_solver.calculate_hours`: shift duration in hours. -/
def calculateHours (s e : String) : ℚ :=
  mkRat (parseTime e - parseTime s) 60

def DAYS_OF_WEEK : List String :=
  ["monday", "tuesday", "wednesday", "thursday", "friday", "saturday", "sunday"]

/-- `roster_solver.DAY_NAME_MAP` as a lookup function. -/
def dayNameMap (s : String) : Option Nat :=
  if s = "mon" ∨ s = "monday" then some 0
  else if s = "tue" ∨ s = "tuesday" then some 1
  else if s = "wed" ∨ s = "wednesday" then some 2
  else if s = "thu" ∨ s = "thursday" then some 3
  else if s = "fri" ∨ s = "friday" then some 4
  else if s = "sat" ∨ s = "saturday" then some 5
  else if s = "sun" ∨ s = "sunday" then some 6
  else none

/-- `roster_solver.get_day_index`: day name to index (0 = Monday). -/
def getDayIndex (s : String) : Nat :=
  if s = "" then 0
  else
    let l := stripStr (toLowerStr s)
    match dayNameMap l with
    | some i => i
    | none =>
      if 3 ≤ l.data.length then (dayNameMap (String.mk (l.data.take 3))).getD 0
      else 0

/-! ### Data classes of `roster_solver.py` -/

structure Employee where
  id : Nat
  name : String
  company : String
  employment_type : String
  weekly_hours : Nat
  is_active : Bool
  am_only : Bool
  primary_shop_id : Option Nat
  secondary_shop_ids : List Nat
deriving DecidableEq

structure LeaveRequest where
  employee_id : Nat
  start_date : String
  end_date : String
  status : String
deriving DecidableEq

structure ShopAssignment where
  employee_id : Nat
  shop_id : Nat
  is_primary : Bool
deriving DecidableEq

structure ShiftTemplate where
  id : String
  shop_id : Nat
  shop_name : String
  day_index : Nat
  shift_type : String
  start_time : String
  end_time : String
  hours : ℚ
  is_trimmed : Bool
  is_mandatory : Bool
deriving DecidableEq

structure DemandEntry where
  shop_id : Nat
  shop_name : String
  day_index : Nat
  target_am : Nat
  target_pm : Nat
  min_am : Nat
  min_pm : Nat
  min_full_day : Nat
  max_staff : Nat
  allow_full_day : Bool
  full_day_counts_as_both : Bool
  is_mandatory : Bool
  coverage_mode : String
deriving DecidableEq

structure SpecialShiftDemand where
  employee_id : Nat
  employee_name : String
  shop_id : Nat
  shop_name : String
  day_index : Nat
  shift_type : String
  start_time : Option String
  end_time : Option String
deriving DecidableEq

/-- One entry of a staffing config's `weeklySchedule` (a JSON object in the
source; absent keys are `none`). -/
structure DayCfg where
  day : String
  minAM : Option Nat
  minPM : Option Nat
  targetAM : Option Nat
  targetPM : Option Nat
  minFullDay : Option Nat
  maxStaff : Option Nat
  isMandatory : Option Bool
deriving DecidableEq

/-- One entry of a shop's legacy `requirements` list (absent keys are `none`;
the `day` key defaults to the empty string). -/
structure ReqEntry where
  day : String
  amStaff : Option Nat
  pmStaff : Option Nat
  maxStaff : Option Nat
  allowFullDay : Option Bool
  isMandatory : Option Bool
deriving DecidableEq

structure StaffingConfig where
  coverage_mode : String
  min_at_opening : Nat
  min_at_closing : Nat
  weekly_schedule : List DayCfg
  full_day_counts_as_both : Bool
  never_below_minimum : Bool
deriving DecidableEq

/-- The merged trimming sub-config (after `load_shop_config` applies
`default_trimming`). -/
structure TrimmingCfg where
  enabled : Bool
  trimAM : Bool
  trimPM : Bool
  minShiftHours : ℚ
  trimFromStart : ℚ
  trimFromEnd : ℚ
  trimWhenMoreThan : Nat
deriving DecidableEq

structure CustomHours where
  enabled : Bool
  openTime : String
  closeTime : String
deriving DecidableEq

/-- The merged Sunday sub-config (after `load_shop_config` applies
`default_sunday`). -/
structure SundayCfg where
  closed : Bool
  maxStaff : Option Nat
  customHours : CustomHours
deriving DecidableEq

/-- One entry of a shop's `specialShifts` list (raw JSON object). -/
structure SpecialRaw where
  employeeId : Option Nat
  employeeName : Option String
  dayOfWeek : Option String
  shiftType : Option String
  startTime : Option String
  endTime : Option String
deriving DecidableEq

/-- `roster_solver.ShopConfig` (the `assigned_employees` field is stored but
never read by the solver paths modelled here and is omitted). -/
structure ShopConfig where
  id : Nat
  name : String
  company : String
  open_time : String
  close_time : String
  is_active : Bool
  can_be_solo : Bool
  min_staff_at_open : Nat
  min_staff_midday : Nat
  min_staff_at_close : Nat
  requirements : List ReqEntry
  trimming : TrimmingCfg
  sunday : SundayCfg
  special_shifts : List SpecialRaw
  staffing_config : Option StaffingConfig
deriving DecidableEq

/-! ### Config loading (`load_staffing_config`, `load_shop_config`)

The raw API records arrive as JSON objects whose sub-fields may be absent;
`safe_json_parse` of an absent or malformed field yields the stated default.
A raw record is modelled structurally, with `Option` marking absent fields;
the loader then fills in exactly the defaults of the source. -/

structure MinimumStaffRaw where
  atOpening : Option Nat
  atClosing : Option Nat
deriving DecidableEq

structure RulesRaw where
  fullDayCountsAsBoth : Option Bool
  neverBelowMinimum : Option Bool
deriving DecidableEq

structure StaffingRaw where
  coverageMode : Option String
  weeklySchedule : List DayCfg
  rules : Option RulesRaw
  fullDayCountsAsBoth : Option Bool
  neverBelowMinimum : Option Bool
  minimumStaff : Option MinimumStaffRaw
deriving DecidableEq

/-- The partial trimming dict of a raw shop record, before the
`{**default_trimming, **trimming}` merge. -/
structure TrimmingRaw where
  enabled : Option Bool
  trimAM : Option Bool
  trimPM : Option Bool
  minShiftHours : Option ℚ
  trimFromStart : Option ℚ
  trimFromEnd : Option ℚ
  trimWhenMoreThan : Option Nat
deriving DecidableEq

structure CustomHoursRaw where
  enabled : Option Bool
  openTime : Option String
  closeTime : Option String
deriving DecidableEq

/-- The partial Sunday dict of a raw shop record, before the
`{**default_sunday, **sunday}` merge. -/
structure SundayRaw where
  closed : Option Bool
  maxStaff : Option Nat
  customHours : Option CustomHoursRaw
deriving DecidableEq

/-- A raw shop record as handed to `load_shop_config` (absent top-level keys
are `none`; list-valued sub-fields default to the empty list). -/
structure RawShop where
  id : Option Nat
  name : Option String
  company : Option String
  openTime : Option String
  closeTime : Option String
  isActive : Option Bool
  canBeSolo : Option Bool
  minStaffAtOpen : Option Nat
  minStaffMidday : Option Nat
  minStaffAtClose : Option Nat
  requirements : List ReqEntry
  trimming : Option TrimmingRaw
  sunday : Option SundayRaw
  specialShifts : List SpecialRaw
  staffingConfig : Option StaffingRaw
deriving DecidableEq

/-- `roster_solver.load_staffing_config`. -/
def loadStaffingConfig (data : Option StaffingRaw) : Option StaffingConfig :=
  match data with
  | none => none
  | some parsed =>
    let rulesFull : Bool :=
      match parsed.rules with
      | some r => r.fullDayCountsAsBoth.getD true
      | none => true
    let rulesNever : Bool :=
      match parsed.rules with
      | some r => r.neverBelowMinimum.getD true
      | none => true
    let minOpen : Nat :=
      match parsed.minimumStaff with
      | some m => m.atOpening.getD 1
      | none => 1
    let minClose : Nat :=
      match parsed.minimumStaff with
      | some m => m.atClosing.getD 1
      | none => 1
    some
      { coverage_mode := parsed.coverageMode.getD "flexible"
        min_at_opening := minOpen
        min_at_closing := minClose
        weekly_schedule := parsed.weeklySchedule
        full_day_counts_as_both := parsed.fullDayCountsAsBoth.getD rulesFull
        never_below_minimum := parsed.neverBelowMinimum.getD rulesNever }

/-- The `{**default_trimming, **trimming}` merge of `load_shop_config`. -/
def mergeTrimming (o : Option TrimmingRaw) : TrimmingCfg :=
  match o with
  | none =>
    { enabled := false, trimAM := true, trimPM := false, minShiftHours := 4
      trimFromStart := 1, trimFromEnd := 2, trimWhenMoreThan := 2 }
  | some r =>
    { enabled := r.enabled.getD false
      trimAM := r.trimAM.getD true
      trimPM := r.trimPM.getD false
      minShiftHours := r.minShiftHours.getD 4
      trimFromStart := r.trimFromStart.getD 1
      trimFromEnd := r.trimFromEnd.getD 2
      trimWhenMoreThan := r.trimWhenMoreThan.getD 2 }

/-- The `{**default_sunday, **sunday}` merge of `load_shop_config`, including
the `customHours is None` repair.  A partial raw `customHours` dict is filled
with the same `08:00`/`13:00` defaults the use sites apply via `.get`. -/
def mergeSunday (o : Option SundayRaw) : SundayCfg :=
  let defaultCustom : CustomHours :=
    { enabled := false, openTime := "08:00", closeTime := "13:00" }
  match o with
  | none => { closed := false, maxStaff := none, customHours := defaultCustom }
  | some r =>
    { closed := r.closed.getD false
      maxStaff := r.maxStaff
      customHours :=
        match r.customHours with
        | none => defaultCustom
        | some c =>
          { enabled := c.enabled.getD false
            openTime := c.openTime.getD "08:00"
            closeTime := c.closeTime.getD "13:00" } }

/-- `roster_solver.load_shop_config`. -/
def loadShopConfig (raw : RawShop) : ShopConfig :=
  { id := raw.id.getD 0
    name := raw.name.getD "Unknown"
    company := raw.company.getD "CMZ"
    open_time := raw.openTime.getD "06:30"
    close_time := raw.closeTime.getD "21:30"
    is_active := raw.isActive.getD true
    can_be_solo := raw.canBeSolo.getD false
    min_staff_at_open := raw.minStaffAtOpen.getD 1
    min_staff_midday := raw.minStaffMidday.getD 2
    min_staff_at_close := raw.minStaffAtClose.getD 1
    requirements := raw.requirements
    trimming := mergeTrimming raw.trimming
    sunday := mergeSunday raw.sunday
    special_shifts := raw.specialShifts
    staffing_config := loadStaffingConfig raw.staffingConfig }

/-! ### Template and demand building
(`build_templates_from_config`, `build_demands_from_config`) -/

/-- Python `//` (floor division) on integers. -/
def pyFloorDiv (a b : ℤ) : ℤ := Int.fdiv a b

/-- `staffing.coverage_mode if staffing else 'flexible'`. -/
def coverageModeOf (cfg : ShopConfig) : String :=
  match cfg.staffing_config with
  | some s => s.coverage_mode
  | none => "flexible"

/-- The `day_config_by_index` lookup both builders construct: entries of the
weekly schedule with a non-empty `day` key, indexed by `get_day_index`;
later entries overwrite earlier ones. -/
def dayCfgLookup (cfg : ShopConfig) (d : Nat) : Option DayCfg :=
  match cfg.staffing_config with
  | none => none
  | some s => (s.weekly_schedule.filter
      (fun dc => dc.day ≠ "" && getDayIndex dc.day == d)).getLast?

/-- The legacy `day_req` lookup: first requirement whose day matches. -/
def dayReqLookup (cfg : ShopConfig) (d : Nat) : Option ReqEntry :=
  cfg.requirements.find? (fun req => getDayIndex req.day == d)

/-- `(open + close) // 2` in minutes, as computed per shop. -/
def midpointOf (cfg : ShopConfig) : ℤ :=
  pyFloorDiv (parseTime cfg.open_time + parseTime cfg.close_time) 2

/-- Template construction with the id scheme `f"{shop_id}_{day_idx}_{type}"`. -/
def mkTemplate (cfg : ShopConfig) (d : Nat) (ty st en : String)
    (trimmed mand : Bool) : ShiftTemplate :=
  { id := natToString cfg.id ++ "_" ++ natToString d ++ "_" ++ ty
    shop_id := cfg.id
    shop_name := cfg.name
    day_index := d
    shift_type := ty
    start_time := st
    end_time := en
    hours := calculateHours st en
    is_trimmed := trimmed
    is_mandatory := mand }

/-- The per-day body of the template loop of `build_templates_from_config`
for one shop.  The day is skipped when it is a closed Sunday; custom Sunday
hours override the standard AM/PM windows; the emitted set of templates
depends only on the coverage mode (plus the optional trimmed-AM template). -/
def dayTemplatesFor (cfg : ShopConfig) (d : Nat) : List ShiftTemplate :=
  if d == 6 && cfg.sunday.closed then []
  else
    let openMins := parseTime cfg.open_time
    let midpoint := midpointOf cfg
    let amStart := cfg.open_time
    let amEnd := formatTime (midpoint + 30)
    let pmStart := formatTime (midpoint - 30)
    let pmEnd := cfg.close_time
    let dayTimes : String × String × String × String :=
      if d == 6 && cfg.sunday.customHours.enabled then
        (cfg.sunday.customHours.openTime, cfg.sunday.customHours.closeTime,
         cfg.sunday.customHours.openTime, cfg.sunday.customHours.closeTime)
      else (amStart, amEnd, pmStart, pmEnd)
    let dayAmStart := dayTimes.1
    let dayAmEnd := dayTimes.2.1
    let dayPmStart := dayTimes.2.2.1
    let dayPmEnd := dayTimes.2.2.2
    let isMand : Bool :=
      match dayCfgLookup cfg d with
      | some dc => dc.isMandatory.getD false
      | none =>
        match dayReqLookup cfg d with
        | some r => r.isMandatory.getD false
        | none => false
    let trimCfg := cfg.trimming
    let trimmedAmStart := formatTime (openMins + pythonInt (qMul trimCfg.trimFromStart 60))
    let trimmedAmEnd := formatTime (midpoint + 30 - pythonInt (qMul trimCfg.trimFromEnd 60))
    let trimmedTemplates : List ShiftTemplate :=
      if trimCfg.enabled && trimCfg.trimAM && !cfg.can_be_solo then
        if qLe trimCfg.minShiftHours (calculateHours trimmedAmStart trimmedAmEnd) then
          [mkTemplate cfg d "AM_TRIMMED" trimmedAmStart trimmedAmEnd true false]
        else []
      else []
    if coverageModeOf cfg == "fullDayOnly" then
      [mkTemplate cfg d "FULL" dayAmStart dayPmEnd false isMand]
    else if coverageModeOf cfg == "split" then
      [mkTemplate cfg d "AM" dayAmStart dayAmEnd false isMand,
       mkTemplate cfg d "PM" dayPmStart dayPmEnd false isMand] ++ trimmedTemplates
    else
      [mkTemplate cfg d "AM" dayAmStart dayAmEnd false isMand,
       mkTemplate cfg d "PM" dayPmStart dayPmEnd false isMand,
       mkTemplate cfg d "FULL" dayAmStart dayPmEnd false isMand] ++ trimmedTemplates

/-- The template half of `build_templates_from_config`: inactive shops are
skipped, every other shop contributes its seven day loops. -/
def buildTemplatesList (shops : List RawShop) : List ShiftTemplate :=
  shops.flatMap (fun raw =>
    let cfg := loadShopConfig raw
    if cfg.is_active then (List.range 7).flatMap (dayTemplatesFor cfg) else [])

/-- The special-shift half of `build_templates_from_config`: entries with a
truthy `employeeId` become `SpecialShiftDemand`s. -/
def buildSpecialDemands (shops : List RawShop) : List SpecialShiftDemand :=
  shops.flatMap (fun raw =>
    let cfg := loadShopConfig raw
    if cfg.is_active then
      cfg.special_shifts.filterMap (fun sp =>
        match sp.employeeId with
        | some empId =>
          if empId ≠ 0 then
            some
              { employee_id := empId
                employee_name := sp.employeeName.getD ("Employee " ++ natToString empId)
                shop_id := cfg.id
                shop_name := cfg.name
                day_index := getDayIndex (sp.dayOfWeek.getD "monday")
                shift_type := toUpperStr (sp.shiftType.getD "AM")
                start_time := sp.startTime
                end_time := sp.endTime }
          else none
        | none => none)
    else [])

/-- `build_templates_from_config`: the pair of templates and special demands. -/
def buildTemplatesFromConfig (shops : List RawShop) :
    List ShiftTemplate × List SpecialShiftDemand :=
  (buildTemplatesList shops, buildSpecialDemands shops)

/-- Python truthiness of `day_req.get('maxStaff')`:
`day_req.get('maxStaff', 10) if day_req.get('maxStaff') else 10`. -/
def truthyMaxStaff (o : Option Nat) : Nat :=
  match o with
  | some n => if n == 0 then 10 else n
  | none => 10

/-- The per-day body of `build_demands_from_config` for one shop (`none` when
the day is a closed Sunday). -/
def demandFor (cfg : ShopConfig) (coverageMode : String) (fullCounts : Bool)
    (d : Nat) : Option DemandEntry :=
  if d == 6 && cfg.sunday.closed then none
  else
    let vals : Nat × Nat × Nat × Nat × Nat × Nat × Bool × Bool :=
      match dayCfgLookup cfg d with
      | some dc =>
        let minAm := dc.minAM.getD 1
        let minPm := dc.minPM.getD 1
        (dc.targetAM.getD minAm, dc.targetPM.getD minPm, minAm, minPm,
         dc.minFullDay.getD 0, dc.maxStaff.getD 10,
         !(coverageMode == "split"), dc.isMandatory.getD false)
      | none =>
        match dayReqLookup cfg d with
        | some req =>
          let ta := req.amStaff.getD 1
          let tp := req.pmStaff.getD 1
          (ta, tp, ta, tp, 0, truthyMaxStaff req.maxStaff,
           req.allowFullDay.getD true, req.isMandatory.getD false)
        | none =>
          (1, 1, 1, 1, 0, 10, !(coverageMode == "split"), false)
    let targetAm := vals.1
    let targetPm := vals.2.1
    let minAm := vals.2.2.1
    let minPm := vals.2.2.2.1
    let minFullDay := vals.2.2.2.2.1
    let maxStaff := vals.2.2.2.2.2.1
    let allowFull := vals.2.2.2.2.2.2.1
    let isMand := vals.2.2.2.2.2.2.2
    let sundayCapped : Nat × Nat × Nat × Nat × Nat :=
      if d == 6 then
        match cfg.sunday.maxStaff with
        | some m =>
          (min targetAm m, min targetPm m, min minAm m, min minPm m, min maxStaff m)
        | none => (targetAm, targetPm, minAm, minPm, maxStaff)
      else (targetAm, targetPm, minAm, minPm, maxStaff)
    some
      { shop_id := cfg.id
        shop_name := cfg.name
        day_index := d
        target_am := sundayCapped.1
        target_pm := sundayCapped.2.1
        min_am := sundayCapped.2.2.1
        min_pm := sundayCapped.2.2.2.1
        min_full_day := minFullDay
        max_staff := sundayCapped.2.2.2.2
        allow_full_day := allowFull
        full_day_counts_as_both := fullCounts
        is_mandatory := isMand
        coverage_mode := coverageMode }

/-- `staffing.full_day_counts_as_both if staffing else True`. -/
def fullCountsOf (cfg : ShopConfig) : Bool :=
  match cfg.staffing_config with
  | some s => s.full_day_counts_as_both
  | none => true

/-- `build_demands_from_config`. -/
def buildDemandsFromConfig (shops : List RawShop) : List DemandEntry :=
  shops.flatMap (fun raw =>
    let cfg := loadShopConfig raw
    if cfg.is_active then
      (List.range 7).filterMap (demandFor cfg (coverageModeOf cfg) (fullCountsOf cfg))
    else [])

/-! ### The CP model of `RosterSolver`

The constructor arguments of `RosterSolver` (its `previous_week_sunday_shifts`
and `shop_rules` arguments are stored but never read and are omitted). -/

structure SolverInput where
  employees : List Employee
  templates : List ShiftTemplate
  demands : List DemandEntry
  assignments : List ShopAssignment
  leaveRequests : List LeaveRequest
  weekStart : Nat
  fixedDaysOff : List (String × List Nat)
  specialDemands : List SpecialShiftDemand
  shopConfigs : List (Nat × ShopConfig)
deriving DecidableEq

/-- `self.employee_shops.get(emp.id, [])`: shop ids of an employee's
assignments, in assignment order. -/
def empAssignedShops (input : SolverInput) (eid : Nat) : List Nat :=
  (input.assignments.filter (fun a => a.employee_id == eid)).map (·.shop_id)

/-- Whether an employee has any approved leave request.  The constructor adds
all seven day indices for every approved request, regardless of its date
range, so the per-week leave-day set of such an employee is `{0..6}`. -/
def onApprovedLeave (input : SolverInput) (eid : Nat) : Bool :=
  input.leaveRequests.any (fun lr => lr.employee_id == eid && lr.status == "approved")

/-- `self.fixed_days_off.get(emp.name.lower())` membership test. -/
def fixedDayOff (input : SolverInput) (name : String) (d : Nat) : Bool :=
  match input.fixedDaysOff.find? (fun p => p.1 == name) with
  | some p => p.2.contains d
  | none => false

/-- The shop list `_build_variables` computes per employee: assigned shops,
then the truthy primary shop, then secondary shops, each appended only when
not yet present. -/
def empShopsFor (input : SolverInput) (emp : Employee) : List Nat :=
  let base := empAssignedShops input emp.id
  let withPrimary :=
    match emp.primary_shop_id with
    | some p => if p ≠ 0 ∧ p ∉ base then base ++ [p] else base
    | none => base
  emp.secondary_shop_ids.foldl
    (fun acc sid => if sid ∉ acc then acc ++ [sid] else acc) withPrimary

/-- The `(employee_id, template_id)` pairs for which `_build_variables`
creates a decision variable, in creation order (an employee on approved leave
is blocked on day indices 0–6, the whole week). -/
def eligiblePairs (input : SolverInput) : List (Nat × String) :=
  input.employees.flatMap (fun emp =>
    if !emp.is_active then []
    else
      let empShops := empShopsFor input emp
      input.templates.filterMap (fun t =>
        if t.shop_id ∉ empShops then none
        else if onApprovedLeave input emp.id && t.day_index < 7 then none
        else if fixedDayOff input (toLowerStr emp.name) t.day_index then none
        else if emp.am_only && (t.shift_type == "PM" || t.shift_type == "FULL") then none
        else some (emp.id, t.id)))

/-- The key set of the `self.shift_vars` dict: eligible pairs with duplicate
keys (possible only through duplicate employee records) collapsed to their
first occurrence. -/
def shiftVarKeys (input : SolverInput) : List (Nat × String) :=
  pydedup (eligiblePairs input)

/-- `next((t for t in self.templates if t.id == template_id), None)`. -/
def findTemplate (input : SolverInput) (tid : String) : Option ShiftTemplate :=
  input.templates.find? (fun t => t.id == tid)

/-- Number of chosen variables among a list of keys (`sum(vars)` under a
boolean valuation). -/
def countTrue (x : Nat → String → Bool) (ks : List (Nat × String)) : Nat :=
  ks.countP (fun k => x k.1 k.2)

/-- Keys whose template resolves to the given shop, day and shift type. -/
def typeKeys (input : SolverInput) (sid d : Nat) (ty : String) :
    List (Nat × String) :=
  (shiftVarKeys input).filter (fun k =>
    match findTemplate input k.2 with
    | some t => t.shop_id == sid && t.day_index == d && t.shift_type == ty
    | none => false)

/-- Keys whose template resolves to the given shop and day (any type). -/
def shopDayKeys (input : SolverInput) (sid d : Nat) : List (Nat × String) :=
  (shiftVarKeys input).filter (fun k =>
    match findTemplate input k.2 with
    | some t => t.shop_id == sid && t.day_index == d
    | none => false)

/-- `am_coverage` of `_add_coverage_constraints`:
`am_vars + full_vars + trimmed_am_vars` when FULL counts as both,
`am_vars + trimmed_am_vars` otherwise. -/
def amCovKeys (input : SolverInput) (d : DemandEntry) : List (Nat × String) :=
  if d.full_day_counts_as_both then
    typeKeys input d.shop_id d.day_index "AM"
      ++ typeKeys input d.shop_id d.day_index "FULL"
      ++ typeKeys input d.shop_id d.day_index "AM_TRIMMED"
  else
    typeKeys input d.shop_id d.day_index "AM"
      ++ typeKeys input d.shop_id d.day_index "AM_TRIMMED"

/-- `pm_coverage` of `_add_coverage_constraints`. -/
def pmCovKeys (input : SolverInput) (d : DemandEntry) : List (Nat × String) :=
  if d.full_day_counts_as_both then
    typeKeys input d.shop_id d.day_index "PM"
      ++ typeKeys input d.shop_id d.day_index "FULL"
  else typeKeys input d.shop_id d.day_index "PM"

/-- `all_coverage = am_vars + pm_vars + full_vars + trimmed_am_vars`. -/
def allCovKeys (input : SolverInput) (d : DemandEntry) : List (Nat × String) :=
  typeKeys input d.shop_id d.day_index "AM"
    ++ typeKeys input d.shop_id d.day_index "PM"
    ++ typeKeys input d.shop_id d.day_index "FULL"
    ++ typeKeys input d.shop_id d.day_index "AM_TRIMMED"

/-- `config.can_be_solo if config else False` with
`config = self.shop_configs.get(shop_id)`. -/
def canBeSoloFor (input : SolverInput) (sid : Nat) : Bool :=
  match input.shopConfigs.find? (fun p => p.1 == sid) with
  | some p => p.2.can_be_solo
  | none => false

/-- The hard constraints `_add_coverage_constraints` adds for one demand:
the mode-dependent minimum-staffing constraints and, when `max_staff < 10`,
the bound on the number of distinct employees working the shop/day (the
per-employee `AddMaxEquality` indicators summed). -/
def coverageConstraintOk (input : SolverInput) (x : Nat → String → Bool)
    (d : DemandEntry) : Bool :=
  let am := amCovKeys input d
  let pm := pmCovKeys input d
  let full := typeKeys input d.shop_id d.day_index "FULL"
  let alls := allCovKeys input d
  let minPart : Bool :=
    if d.coverage_mode == "fullDayOnly" then
      full.isEmpty ||
        (decide (max (max d.min_am d.min_pm) (max d.min_full_day 1) ≤ countTrue x full)
          && (decide (10 ≤ d.max_staff) || decide (countTrue x full ≤ d.max_staff)))
    else if d.coverage_mode == "split" then
      (am.isEmpty || d.min_am == 0 || decide (d.min_am ≤ countTrue x am))
        && (pm.isEmpty || d.min_pm == 0 || decide (d.min_pm ≤ countTrue x pm))
    else
      if canBeSoloFor input d.shop_id then
        alls.isEmpty || decide (1 ≤ countTrue x alls)
      else
        (am.isEmpty || d.min_am == 0 || decide (d.min_am ≤ countTrue x am))
          && (pm.isEmpty || d.min_pm == 0 || decide (d.min_pm ≤ countTrue x pm))
          && (alls.isEmpty || decide (1 ≤ countTrue x alls))
  let maxPart : Bool :=
    decide (10 ≤ d.max_staff) ||
      decide ((pydedup (((shopDayKeys input d.shop_id d.day_index).filter
        (fun k => x k.1 k.2)).map (·.1))).length ≤ d.max_staff)
  minPart && maxPart

def coverageConstraintsHold (input : SolverInput) (x : Nat → String → Bool) : Bool :=
  input.demands.all (coverageConstraintOk input x)

/-- The shift-type matching of `_add_special_request_constraints`. -/
def specialTypeMatches (spType tType : String) : Bool :=
  (spType == "FULL" && tType == "FULL")
    || (spType == "AM" && (tType == "AM" || tType == "AM_TRIMMED"))
    || (spType == "PM" && tType == "PM")

/-- The hard constraint for one special request: when at least one matching
variable exists for the named employee, at least one must be chosen. -/
def specialConstraintOk (input : SolverInput) (x : Nat → String → Bool)
    (sp : SpecialShiftDemand) : Bool :=
  let matchingKeys :=
    (input.templates.filter (fun t =>
      t.shop_id == sp.shop_id && t.day_index == sp.day_index
        && specialTypeMatches sp.shift_type t.shift_type)).filterMap
      (fun t =>
        if (shiftVarKeys input).contains (sp.employee_id, t.id) then
          some (sp.employee_id, t.id)
        else none)
  matchingKeys.isEmpty || matchingKeys.any (fun k => x k.1 k.2)

def specialConstraintsHold (input : SolverInput) (x : Nat → String → Bool) : Bool :=
  input.specialDemands.all (specialConstraintOk input x)

/-- Keys of one employee's variables whose template resolves to day `d`. -/
def empDayKeys (input : SolverInput) (eid d : Nat) : List (Nat × String) :=
  (shiftVarKeys input).filter (fun k =>
    k.1 == eid && ((findTemplate input k.2).map (·.day_index) == some d))

/-- Keys of one employee's variables. -/
def empKeys (input : SolverInput) (eid : Nat) : List (Nat × String) :=
  (shiftVarKeys input).filter (fun k => k.1 == eid)

/-- `int(template.hours * 10)` of a key's template (0 when the template id
does not resolve, matching the `if template:` guards). -/
def hoursX10 (input : SolverInput) (k : Nat × String) : ℤ :=
  match findTemplate input k.2 with
  | some t => pythonInt (qMul t.hours 10)
  | none => 0

/-- `sum(var * int(hours*10))` over an employee's variables. -/
def hoursSumX10 (input : SolverInput) (x : Nat → String → Bool) (eid : Nat) : ℤ :=
  (empKeys input eid).foldl
    (fun acc k => acc + (if x k.1 k.2 then hoursX10 input k else 0)) 0

/-- The hard constraints `_add_employee_constraints` adds for one employee:
at most one shift per day (day indices 0–6), at most six shifts per week,
and the 200-tenths-of-an-hour cap for students. -/
def empConstraintOk (input : SolverInput) (x : Nat → String → Bool)
    (emp : Employee) : Bool :=
  !emp.is_active ||
    ((List.range 7).all (fun d => decide (countTrue x (empDayKeys input emp.id d) ≤ 1))
      && decide (countTrue x (empKeys input emp.id) ≤ 6)
      && (!(emp.employment_type == "student")
          || decide (hoursSumX10 input x emp.id ≤ 200)))

def empConstraintsHold (input : SolverInput) (x : Nat → String → Bool) : Bool :=
  input.employees.all (empConstraintOk input x)

/-- `am_coverage + full_coverage` of `_build_objective` (AM and AM_TRIMMED
count as AM there; FULL is added when it counts for both halves). -/
def objAmEffKeys (input : SolverInput) (d : DemandEntry) : List (Nat × String) :=
  let amc := typeKeys input d.shop_id d.day_index "AM"
    ++ typeKeys input d.shop_id d.day_index "AM_TRIMMED"
  if d.full_day_counts_as_both then
    amc ++ typeKeys input d.shop_id d.day_index "FULL"
  else amc

def objPmEffKeys (input : SolverInput) (d : DemandEntry) : List (Nat × String) :=
  let pmc := typeKeys input d.shop_id d.day_index "PM"
  if d.full_day_counts_as_both then
    pmc ++ typeKeys input d.shop_id d.day_index "FULL"
  else pmc

/-- Feasibility of the auxiliary variables `_build_objective` introduces for
one demand, projected onto the decision variables: `over_am`/`over_pm` have
domain `[0, 10]`, so the over-coverage excess may not exceed 10 (the
under-target variables' domains are always satisfiable). -/
def objDemandOk (input : SolverInput) (x : Nat → String → Bool)
    (d : DemandEntry) : Bool :=
  let amEff := objAmEffKeys input d
  let pmEff := objPmEffKeys input d
  (amEff.isEmpty || decide ((countTrue x amEff : ℤ) - (d.target_am : ℤ) ≤ 10))
    && (pmEff.isEmpty || decide ((countTrue x pmEff : ℤ) - (d.target_pm : ℤ) ≤ 10))

/-- Keys of an employee that contribute an hours term (template resolves). -/
def empHourTermKeys (input : SolverInput) (eid : Nat) : List (Nat × String) :=
  (empKeys input eid).filter (fun k => (findTemplate input k.2).isSome)

/-- Feasibility of the hour variables `_build_objective` introduces for one
active employee, projected onto the decision variables: the weekly total (in
tenths) must fit `[0, 600]`, the under-hours slack `[0, 500]`, and for
non-students the overtime slacks `[0, 300]` and `[0, 200]`. -/
def objEmpOk (input : SolverInput) (x : Nat → String → Bool)
    (emp : Employee) : Bool :=
  !emp.is_active || (empHourTermKeys input emp.id).isEmpty ||
    (let tot := hoursSumX10 input x emp.id
     decide (0 ≤ tot) && decide (tot ≤ 600)
       && decide ((emp.weekly_hours : ℤ) * 10 - tot ≤ 500)
       && (emp.employment_type == "student"
           || (decide (tot - (emp.weekly_hours : ℤ) * 10 ≤ 300)
               && decide (tot - 500 ≤ 200))))

def objFeasible (input : SolverInput) (x : Nat → String → Bool) : Bool :=
  input.demands.all (objDemandOk input x) && input.employees.all (objEmpOk input x)

/-- A valuation of the decision variables that the CP engine can return with
status OPTIMAL or FEASIBLE: it satisfies every hard constraint of the model
and admits values for the auxiliary objective variables. -/
def modelFeasible (input : SolverInput) (x : Nat → String → Bool) : Bool :=
  coverageConstraintsHold input x && specialConstraintsHold input x
    && empConstraintsHold input x && objFeasible input x

/-! ### Solution extraction and `RosterSolver.solve` -/

/-- A shift dict of the result (`solve`'s extraction loop).  The `isTrimmed`
key is absent until the trim pass sets it; absence is modelled as `false`.
The Python `id` and `dayIndex` bookkeeping keys are retained where the claims
need them; `date` is the ordinal day `week_start + day_index`. -/
structure OutShift where
  employeeId : Nat
  employeeName : String
  shopId : Nat
  shopName : String
  date : Nat
  dayIndex : Nat
  shiftType : String
  startTime : String
  endTime : String
  hours : ℚ
  isTrimmed : Bool
  company : String
deriving DecidableEq

/-- `self.employee_by_id = {e.id: e for e in employees}` (later records with
the same id overwrite earlier ones) followed by `.get`. -/
def employeeById (input : SolverInput) (eid : Nat) : Option Employee :=
  input.employees.foldl (fun acc e => if e.id == eid then some e else acc) none

/-- The body of the extraction loop for one chosen key. -/
def extractOne (input : SolverInput) (x : Nat → String → Bool)
    (k : Nat × String) : Option OutShift :=
  if x k.1 k.2 then
    match findTemplate input k.2 with
    | none => none
    | some t =>
      match employeeById input k.1 with
      | none => none
      | some emp =>
        some
          { employeeId := k.1
            employeeName := emp.name
            shopId := t.shop_id
            shopName := t.shop_name
            date := input.weekStart + t.day_index
            dayIndex := t.day_index
            shiftType := t.shift_type
            startTime := t.start_time
            endTime := t.end_time
            hours := t.hours
            isTrimmed := false
            company := emp.company }
  else none

/-- The shifts `solve` materialises from a valuation. -/
def extractShifts (input : SolverInput) (x : Nat → String → Bool) : List OutShift :=
  (shiftVarKeys input).filterMap (extractOne input x)

/-- The `employeeHours` dict: zero-initialised per employee id, incremented
by the hours of each extracted shift. -/
def employeeHoursOut (input : SolverInput) (x : Nat → String → Bool) :
    List (Nat × ℚ) :=
  (pydedup (input.employees.map (·.id))).map (fun i =>
    (i, ((extractShifts input x).filter (fun s => s.employeeId == i)).foldl
      (fun a s => qAdd a s.hours) 0))

/-- The CP-SAT solver statuses (`cp_model.CpSolverStatus`). -/
inductive EngineStatus where
  | OPTIMAL
  | FEASIBLE
  | INFEASIBLE
  | MODEL_INVALID
  | UNKNOWN
deriving DecidableEq

/-- The `status_names` mapping of `solve`. -/
def statusName : EngineStatus → String
  | .OPTIMAL => "OPTIMAL"
  | .FEASIBLE => "FEASIBLE"
  | .INFEASIBLE => "INFEASIBLE"
  | .MODEL_INVALID => "MODEL_INVALID"
  | .UNKNOWN => "UNKNOWN"

/-- The result dict of `solve` (the `objectiveValue` key of the success
branch is omitted). -/
structure SolveResult where
  success : Bool
  status : String
  shifts : List OutShift
  employeeHours : List (Nat × ℚ)
  message : String
deriving DecidableEq

/-- `RosterSolver.solve` after model building, parameterised by the engine
status and the valuation the engine returns: the empty-variable early return,
the OPTIMAL/FEASIBLE extraction branch, and the failure branch. -/
def solveModel (input : SolverInput) (st : EngineStatus)
    (x : Nat → String → Bool) : SolveResult :=
  if (shiftVarKeys input).isEmpty then
    { success := false
      status := "NO_VARIABLES"
      shifts := []
      employeeHours := []
      message := "No employees can be assigned to any shifts. Check shop assignments." }
  else if st = EngineStatus.OPTIMAL ∨ st = EngineStatus.FEASIBLE then
    { success := true
      status := statusName st
      shifts := extractShifts input x
      employeeHours := employeeHoursOut input x
      message := "Generated " ++ natToString (extractShifts input x).length ++ " shifts" }
  else
    { success := false
      status := statusName st
      shifts := []
      employeeHours := []
      message := "Could not find a valid roster. Status: " ++ statusName st }

/-! ### The trim pass (`backend/solver/utils.py`) -/

/-- `utils._time_to_minutes`: tolerant `HH:MM` parse, 0 on failure (the
`except` branch fires unless the split yields exactly two integer parts). -/
def timeToMinutes (s : String) : Nat :=
  if s = "" then 0
  else
    match splitOnChar ':' s.data with
    | [h, m] =>
      match digitsToNat h, digitsToNat m with
      | some hh, some mm => hh * 60 + mm
      | _, _ => 0
    | _ => 0

/-- `utils._minutes_to_time`: minutes to `HH:MM`, clamping negatives to 0. -/
def minutesToTime (m : ℤ) : String :=
  let m' : ℤ := if m < 0 then 0 else m
  pad2 (Int.fdiv m' 60) ++ ":" ++ pad2 (Int.emod m' 60)

/-- Python `min(l, key=f)`: the first element with minimal key
(paired here with its position in the underlying shifts list). -/
def argminIdxBy (f : OutShift → Nat) : List (Nat × OutShift) → Option (Nat × OutShift)
  | [] => none
  | a :: l => some (l.foldl (fun cur b => if f b.2 < f cur.2 then b else cur) a)

/-- Python `max(l, key=f)`: the first element with maximal key. -/
def argmaxIdxBy (f : OutShift → Nat) : List (Nat × OutShift) → Option (Nat × OutShift)
  | [] => none
  | a :: l => some (l.foldl (fun cur b => if f cur.2 < f b.2 then b else cur) a)

/-- `employee_hours[emp_id] = round(employee_hours[emp_id] - delta, 2)`,
guarded by `emp_id in employee_hours`. -/
def updateHrs (hours : List (Nat × ℚ)) (eid : Nat) (delta : ℚ) : List (Nat × ℚ) :=
  if hours.any (fun p => p.1 == eid) then
    hours.map (fun p => if p.1 == eid then (p.1, round2 (qSub p.2 delta)) else p)
  else hours

/-- `s.get('shopId'), s.get('date')` group membership for one group key. -/
def sameShopDate (key : Nat × Nat) (s : OutShift) : Bool :=
  s.shopId == key.1 && s.date == key.2

/-- `s.get('shiftType', '').upper().startswith('AM')`. -/
def isOpenerShift (s : OutShift) : Bool :=
  leadingMatch "AM".data (toUpperStr s.shiftType).data

/-- `s.get('shiftType', '').upper() in ('PM', 'FULL')`. -/
def isCloserShift (s : OutShift) : Bool :=
  toUpperStr s.shiftType == "PM" || toUpperStr s.shiftType == "FULL"

/-- `s.get('shiftType', '').upper() == 'FULL'`. -/
def isFullShift (s : OutShift) : Bool := toUpperStr s.shiftType == "FULL"

/-- The body of `apply_trimming`'s loop for one `(shop, date)` group: the
trigger test, the first-AM-opener trim, and the last-PM/FULL-closer trim.
The openers and closers are disjoint (AM-prefixed vs PM/FULL types), so
selecting both from the same snapshot matches the in-place mutation of the
source. -/
def trimShopDay (maxFirstAmTrim maxLastPmTrim : ℚ) (key : Nat × Nat)
    (st : List OutShift × List (Nat × ℚ)) : List OutShift × List (Nat × ℚ) :=
  let shifts := st.1
  let hours := st.2
  let group := shifts.enum.filter (fun p => sameShopDate key p.2)
  let openers := group.filter (fun p => isOpenerShift p.2)
  let closers := group.filter (fun p => isCloserShift p.2)
  let hasFull := group.any (fun p => isFullShift p.2)
  if !(decide (1 < openers.length) || hasFull) then st
  else
    let afterAm : List OutShift × List (Nat × ℚ) :=
      if 1 < openers.length then
        match argminIdxBy (fun s => timeToMinutes s.startTime) openers with
        | some fo =>
          let trimMinutes : ℤ := pythonInt (qMul maxFirstAmTrim 60)
          let newStart : ℤ := (timeToMinutes fo.2.startTime : ℤ) + trimMinutes
          let s' : OutShift :=
            { fo.2 with
              startTime := minutesToTime newStart
              hours := round2 (qSub fo.2.hours maxFirstAmTrim)
              isTrimmed := true }
          (shifts.set fo.1 s', updateHrs hours fo.2.employeeId maxFirstAmTrim)
        | none => (shifts, hours)
      else (shifts, hours)
    if !closers.isEmpty && (hasFull || decide (1 < openers.length)) then
      match argmaxIdxBy (fun s => timeToMinutes s.endTime) closers with
      | some lc =>
        let trimMinutes : ℤ := pythonInt (qMul maxLastPmTrim 60)
        let newEnd : ℤ := (timeToMinutes lc.2.endTime : ℤ) - trimMinutes
        if (timeToMinutes "12:00" : ℤ) ≤ newEnd then
          let s' : OutShift :=
            { lc.2 with
              endTime := minutesToTime newEnd
              hours := round2 (qSub lc.2.hours maxLastPmTrim)
              isTrimmed := true }
          (afterAm.1.set lc.1 s', updateHrs afterAm.2 lc.2.employeeId maxLastPmTrim)
        else afterAm
      | none => afterAm
    else afterAm

/-- `utils.apply_trimming`: group the shifts by `(shopId, date)` in
first-occurrence order and run the per-group trim on each group in turn.
Trimming never changes a shift's shop or date, so recomputing each group from
the current list coincides with the dict of references the source builds
up front. -/
def applyTrimming (shifts : List OutShift) (employeeHours : List (Nat × ℚ))
    (maxFirstAmTrim maxLastPmTrim : ℚ) : List OutShift × List (Nat × ℚ) :=
  if shifts.isEmpty then (shifts, employeeHours)
  else
    (pydedup (shifts.map (fun s => (s.shopId, s.date)))).foldl
      (fun st key => trimShopDay maxFirstAmTrim maxLastPmTrim key st)
      (shifts, employeeHours)

/-- No `(shop, date)` group of `shifts` triggers trimming: at most one
AM-prefixed shift and no FULL shift per group. -/
def noTrimTrigger (shifts : List OutShift) : Bool :=
  (pydedup (shifts.map (fun s => (s.shopId, s.date)))).all (fun key =>
    let group := shifts.filter (sameShopDate key)
    decide ((group.filter isOpenerShift).length ≤ 1)
      && !(group.any isFullShift))

/-! ### Basic facts about the variable keys and the extraction -/

theorem mem_shiftVarKeys {input : SolverInput} {k : Nat × String} :
    k ∈ shiftVarKeys input ↔ k ∈ eligiblePairs input := by
  simp [shiftVarKeys, mem_pydedup]

theorem shiftVarKeys_nodup (input : SolverInput) : (shiftVarKeys input).Nodup :=
  pydedup_nodup _

theorem mem_eligiblePairs_emp {input : SolverInput} {k : Nat × String}
    (hk : k ∈ eligiblePairs input) :
    ∃ emp ∈ input.employees, emp.is_active = true ∧ emp.id = k.1 := by
  unfold eligiblePairs at hk
  rw [List.mem_flatMap] at hk
  obtain ⟨emp, hmem, hk⟩ := hk
  by_cases ha : emp.is_active
  · refine ⟨emp, hmem, ha, ?_⟩
    rw [ha] at hk
    simp only [Bool.not_true, Bool.false_eq_true, if_false] at hk
    rw [List.mem_filterMap] at hk
    obtain ⟨t, _, hsome⟩ := hk
    split at hsome
    · exact absurd hsome (by simp)
    · split at hsome
      · exact absurd hsome (by simp)
      · split at hsome
        · exact absurd hsome (by simp)
        · split at hsome
          · exact absurd hsome (by simp)
          · cases hsome; rfl
  · rw [Bool.not_eq_true] at ha
    rw [ha] at hk
    simp at hk

theorem eligiblePairs_leave {input : SolverInput} {e : Nat}
    (hday : ∀ t ∈ input.templates, t.day_index < 7)
    (hleave : onApprovedLeave input e = true) (tid : String) :
    (e, tid) ∉ eligiblePairs input := by
  intro hk
  unfold eligiblePairs at hk
  rw [List.mem_flatMap] at hk
  obtain ⟨emp, _, hk⟩ := hk
  by_cases ha : emp.is_active
  · rw [ha] at hk
    simp only [Bool.not_true, Bool.false_eq_true, if_false] at hk
    rw [List.mem_filterMap] at hk
    obtain ⟨t, htmem, hsome⟩ := hk
    split at hsome
    · exact absurd hsome (by simp)
    · rename_i hshop
      split at hsome
      · exact absurd hsome (by simp)
      · rename_i hcond
        have hempid : emp.id = e := by
          split at hsome
          · exact absurd hsome (by simp)
          · split at hsome
            · exact absurd hsome (by simp)
            · cases hsome; rfl
        rw [hempid] at hcond
        exact hcond (by
          rw [hleave]
          simp [hday t htmem])
  · rw [Bool.not_eq_true] at ha
    rw [ha] at hk
    simp at hk

theorem extractOne_eq_some {input : SolverInput} {x : Nat → String → Bool}
    {k : Nat × String} {s : OutShift} (h : extractOne input x k = some s) :
    x k.1 k.2 = true ∧ s.employeeId = k.1 ∧
      ∃ t, findTemplate input k.2 = some t ∧ s.dayIndex = t.day_index ∧
        s.date = input.weekStart + t.day_index ∧ s.shopId = t.shop_id ∧
        s.shiftType = t.shift_type := by
  unfold extractOne at h
  by_cases hx : x k.1 k.2
  · rw [if_pos hx] at h
    cases hft : findTemplate input k.2 with
    | none => rw [hft] at h; exact absurd h (by simp)
    | some t =>
      rw [hft] at h
      cases hfe : employeeById input k.1 with
      | none => rw [hfe] at h; exact absurd h (by simp)
      | some emp =>
        rw [hfe] at h
        cases h
        exact ⟨hx, rfl, t, rfl, rfl, rfl, rfl, rfl⟩
  · rw [if_neg hx] at h
    exact absurd h (by simp)

theorem employeeById_isSome_aux {e : Nat} :
    ∀ (l : List Employee) (acc : Option Employee),
      (acc.isSome = true ∨ ∃ emp ∈ l, emp.id = e) →
      (l.foldl (fun acc e' => if e'.id == e then some e' else acc) acc).isSome = true := by
  intro l
  induction l with
  | nil =>
    intro acc h
    rcases h with h | ⟨_, hmem, _⟩
    · exact h
    · exact absurd hmem (List.not_mem_nil _)
  | cons a l ih =>
    intro acc h
    simp only [List.foldl_cons]
    by_cases hid : a.id == e
    · exact ih _ (Or.inl (by rw [if_pos hid]; rfl))
    · rw [if_neg hid]
      apply ih
      rcases h with h | ⟨emp, hmem, hide⟩
      · exact Or.inl h
      · rcases List.mem_cons.1 hmem with rfl | hmem
        · exact absurd (by simp [hide]) hid
        · exact Or.inr ⟨emp, hmem, hide⟩

theorem employeeById_isSome {input : SolverInput} {e : Nat}
    (h : ∃ emp ∈ input.employees, emp.id = e) :
    (employeeById input e).isSome = true :=
  employeeById_isSome_aux input.employees none (Or.inr h)

theorem key_emp_found {input : SolverInput} {k : Nat × String}
    (hk : k ∈ shiftVarKeys input) : (employeeById input k.1).isSome = true := by
  obtain ⟨emp, hmem, _, hid⟩ := mem_eligiblePairs_emp (mem_shiftVarKeys.1 hk)
  exact employeeById_isSome ⟨emp, hmem, hid⟩

/-! ### Decomposing the feasibility predicate -/

theorem modelFeasible_cov {input : SolverInput} {x : Nat → String → Bool}
    (h : modelFeasible input x = true) : coverageConstraintsHold input x = true := by
  unfold modelFeasible at h
  simp only [Bool.and_eq_true] at h
  exact h.1.1.1

theorem modelFeasible_emp {input : SolverInput} {x : Nat → String → Bool}
    (h : modelFeasible input x = true) : empConstraintsHold input x = true := by
  unfold modelFeasible at h
  simp only [Bool.and_eq_true] at h
  exact h.1.2

theorem solveModel_success_shifts {input : SolverInput} {st : EngineStatus}
    {x : Nat → String → Bool} (h : (solveModel input st x).success = true) :
    (solveModel input st x).shifts = extractShifts input x := by
  by_cases hA : (shiftVarKeys input).isEmpty
  · simp [solveModel, hA] at h
  · by_cases hB : st = EngineStatus.OPTIMAL ∨ st = EngineStatus.FEASIBLE
    · simp [solveModel, hA, hB]
    · simp [solveModel, hA, hB] at h

/-! ### At most one shift per employee and day -/

/-- The per-employee-per-day constraint carries over to the extracted shifts:
any valuation satisfying `_add_employee_constraints` yields at most one shift
per `(employee, day index)`. -/
theorem countP_empDay_le_one (input : SolverInput) (x : Nat → String → Bool)
    (hday : ∀ t ∈ input.templates, t.day_index < 7)
    (hemp : empConstraintsHold input x = true) (e d : Nat) :
    (extractShifts input x).countP
      (fun s => s.employeeId == e && s.dayIndex == d) ≤ 1 := by
  unfold extractShifts
  rw [List.countP_filterMap]
  by_cases hex : ∃ emp ∈ input.employees, emp.is_active = true ∧ emp.id = e
  · obtain ⟨emp, hmem, hact, hide⟩ := hex
    by_cases hd7 : d < 7
    · have hcon := List.all_eq_true.1 hemp emp hmem
      unfold empConstraintOk at hcon
      rw [hact] at hcon
      simp only [Bool.not_true, Bool.false_or, Bool.and_eq_true,
        List.all_eq_true, decide_eq_true_eq] at hcon
      have hbound := hcon.1.1 d (List.mem_range.2 hd7)
      calc (shiftVarKeys input).countP
            (fun k => (Option.map (fun s => s.employeeId == e && s.dayIndex == d)
              (extractOne input x k)).getD false)
          ≤ countTrue x (empDayKeys input emp.id d) := by
            unfold countTrue empDayKeys
            rw [List.countP_filter]
            apply List.countP_mono_left
            intro k _ hPk
            cases hone : extractOne input x k with
            | none => rw [hone] at hPk; exact absurd hPk (by simp)
            | some s =>
              rw [hone] at hPk
              simp only [Option.map_some', Option.getD_some, Bool.and_eq_true,
                beq_iff_eq] at hPk
              obtain ⟨hx, hsid, t, hft, hdi, _, _, _⟩ := extractOne_eq_some hone
              simp only [Bool.and_eq_true, beq_iff_eq]
              exact ⟨hx, hide ▸ (hsid ▸ hPk.1), by rw [hft]; simp [← hdi, hPk.2]⟩
        _ ≤ 1 := hbound
    · have : (shiftVarKeys input).countP
          (fun k => (Option.map (fun s => s.employeeId == e && s.dayIndex == d)
            (extractOne input x k)).getD false) = 0 := by
        rw [List.countP_eq_zero]
        intro k _ hPk
        cases hone : extractOne input x k with
        | none => rw [hone] at hPk; exact absurd hPk (by simp)
        | some s =>
          rw [hone] at hPk
          simp only [Option.map_some', Option.getD_some, Bool.and_eq_true,
            beq_iff_eq] at hPk
          obtain ⟨_, _, t, hft, hdi, _, _, _⟩ := extractOne_eq_some hone
          have : t.day_index < 7 :=
            hday t (List.mem_of_find?_eq_some hft)
          omega
      omega
  · have : (shiftVarKeys input).countP
        (fun k => (Option.map (fun s => s.employeeId == e && s.dayIndex == d)
          (extractOne input x k)).getD false) = 0 := by
      rw [List.countP_eq_zero]
      intro k hk hPk
      cases hone : extractOne input x k with
      | none => rw [hone] at hPk; exact absurd hPk (by simp)
      | some s =>
        rw [hone] at hPk
        simp only [Option.map_some', Option.getD_some, Bool.and_eq_true,
          beq_iff_eq] at hPk
        obtain ⟨_, hsid, _⟩ := extractOne_eq_some hone
        obtain ⟨emp, hmem, hact, hide⟩ :=
          mem_eligiblePairs_emp (mem_shiftVarKeys.1 hk)
        exact hex ⟨emp, hmem, hact, by rw [hide, ← hsid, hPk.1]⟩
    omega

theorem mem_extract_date {input : SolverInput} {x : Nat → String → Bool}
    {s : OutShift} (hs : s ∈ extractShifts input x) :
    s.date = input.weekStart + s.dayIndex := by
  obtain ⟨k, _, hone⟩ := List.mem_filterMap.1 hs
  obtain ⟨_, _, t, _, hdi, hdate, _, _⟩ := extractOne_eq_some hone
  rw [hdate, hdi]

/-- C2: in every result returned with `success = true`, no two entries of the
shifts list share the same `(employeeId, date)` pair — for every employee id
and date, the result contains at most one matching shift. -/
theorem C2_at_most_one_shift_per_employee_per_date
    (input : SolverInput) (x : Nat → String → Bool) (st : EngineStatus)
    (hday : ∀ t ∈ input.templates, t.day_index < 7)
    (hfeas : modelFeasible input x = true)
    (hsucc : (solveModel input st x).success = true) (e dt : Nat) :
    ((solveModel input st x).shifts.countP
      (fun s => s.employeeId == e && s.date == dt)) ≤ 1 := by
  rw [solveModel_success_shifts hsucc]
  calc (extractShifts input x).countP (fun s => s.employeeId == e && s.date == dt)
      ≤ (extractShifts input x).countP
          (fun s => s.employeeId == e && s.dayIndex == (dt - input.weekStart)) := by
        apply List.countP_mono_left
        intro s hs hp
        simp only [Bool.and_eq_true, beq_iff_eq] at hp ⊢
        refine ⟨hp.1, ?_⟩
        have hdate := mem_extract_date hs
        omega
    _ ≤ 1 := countP_empDay_le_one input x hday (modelFeasible_emp hfeas) e _

/-- Witness for C2: a concrete feasible week at one shop, two employees. -/
def wtShopRaw : RawShop :=
  { id := some 1, name := some "Shop", company := none,
    openTime := some "08:00", closeTime := some "16:00",
    isActive := none, canBeSolo := none, minStaffAtOpen := none,
    minStaffMidday := none, minStaffAtClose := none,
    requirements := [],
    trimming := none,
    sunday := some { closed := some true, maxStaff := none, customHours := none },
    specialShifts := [], staffingConfig := none }

def wtEmpA : Employee :=
  { id := 1, name := "A", company := "CMZ", employment_type := "full-time",
    weekly_hours := 40, is_active := true, am_only := false,
    primary_shop_id := some 1, secondary_shop_ids := [] }

def wtEmpB : Employee := { wtEmpA with id := 2, name := "B" }

def wtInput : SolverInput :=
  { employees := [wtEmpA, wtEmpB],
    templates := buildTemplatesList [wtShopRaw],
    demands := buildDemandsFromConfig [wtShopRaw],
    assignments := [], leaveRequests := [], weekStart := 0,
    fixedDaysOff := [], specialDemands := [],
    shopConfigs := [(1, loadShopConfig wtShopRaw)] }

/-- Employee 1 works every AM, employee 2 every PM, Monday through Saturday. -/
def wtX : Nat → String → Bool := fun e tid =>
  (e == 1 && ["1_0_AM", "1_1_AM", "1_2_AM", "1_3_AM", "1_4_AM",
    "1_5_AM"].contains tid)
    || (e == 2 && ["1_0_PM", "1_1_PM", "1_2_PM", "1_3_PM", "1_4_PM",
      "1_5_PM"].contains tid)

theorem C2_witness :
    ((solveModel wtInput EngineStatus.OPTIMAL wtX).shifts.countP
      (fun s => s.employeeId == 1 && s.date == 0)) ≤ 1 :=
  C2_at_most_one_shift_per_employee_per_date wtInput wtX EngineStatus.OPTIMAL
    (by decide) (by decide) (by decide) 1 0

/-- C4 counterexample: `_add_employee_constraints` contains no
"no consecutive FULL days" constraint.  At a full-day-only shop, a feasible
valuation puts employee 1 on FULL shifts on both Monday (day 0) and Tuesday
(day 1), and the solver returns it with `success = true`. -/
def cx4ShopRaw : RawShop :=
  { id := some 1, name := some "FullShop", company := none,
    openTime := some "08:00", closeTime := some "16:00",
    isActive := none, canBeSolo := none, minStaffAtOpen := none,
    minStaffMidday := none, minStaffAtClose := none,
    requirements := [], trimming := none, sunday := none,
    specialShifts := [],
    staffingConfig := some
      { coverageMode := some "fullDayOnly", weeklySchedule := [],
        rules := none, fullDayCountsAsBoth := none, neverBelowMinimum := none,
        minimumStaff := none } }

def cx4EmpA : Employee :=
  { id := 1, name := "A", company := "CMZ", employment_type := "full-time",
    weekly_hours := 40, is_active := true, am_only := false,
    primary_shop_id := some 1, secondary_shop_ids := [] }

def cx4EmpB : Employee := { cx4EmpA with id := 2, name := "B" }

def cx4Input : SolverInput :=
  { employees := [cx4EmpA, cx4EmpB],
    templates := buildTemplatesList [cx4ShopRaw],
    demands := buildDemandsFromConfig [cx4ShopRaw],
    assignments := [], leaveRequests := [], weekStart := 0,
    fixedDaysOff := [], specialDemands := [],
    shopConfigs := [(1, loadShopConfig cx4ShopRaw)] }

def cx4X : Nat → String → Bool := fun e tid =>
  (e == 1 && ["1_0_FULL", "1_1_FULL", "1_2_FULL", "1_3_FULL", "1_4_FULL",
    "1_5_FULL"].contains tid)
    || (e == 2 && tid == "1_6_FULL")

theorem C4_counterexample :
    modelFeasible cx4Input cx4X = true
      ∧ (solveModel cx4Input EngineStatus.OPTIMAL cx4X).success = true
      ∧ ((solveModel cx4Input EngineStatus.OPTIMAL cx4X).shifts.any
          (fun s => s.employeeId == 1 && s.dayIndex == 0
            && s.shiftType == "FULL")) = true
      ∧ ((solveModel cx4Input EngineStatus.OPTIMAL cx4X).shifts.any
          (fun s => s.employeeId == 1 && s.dayIndex == 1
            && s.shiftType == "FULL")) = true := by
  refine ⟨by decide, by decide, by decide, by decide⟩

/-- C4 (amended): the model imposes no restriction across consecutive days on
FULL shifts; what does hold per employee is the daily cap, so a success
result contains at most one FULL shift per employee per day. -/
theorem C4_amended_at_most_one_full_per_day
    (input : SolverInput) (x : Nat → String → Bool) (st : EngineStatus)
    (hday : ∀ t ∈ input.templates, t.day_index < 7)
    (hfeas : modelFeasible input x = true)
    (hsucc : (solveModel input st x).success = true) (e d : Nat) :
    ((solveModel input st x).shifts.countP
      (fun s => s.employeeId == e && s.dayIndex == d
        && s.shiftType == "FULL")) ≤ 1 := by
  rw [solveModel_success_shifts hsucc]
  calc (extractShifts input x).countP
        (fun s => s.employeeId == e && s.dayIndex == d && s.shiftType == "FULL")
      ≤ (extractShifts input x).countP
          (fun s => s.employeeId == e && s.dayIndex == d) := by
        apply List.countP_mono_left
        intro s _ hp
        simp only [Bool.and_eq_true] at hp ⊢
        exact ⟨hp.1.1, hp.1.2⟩
    _ ≤ 1 := countP_empDay_le_one input x hday (modelFeasible_emp hfeas) e d

theorem C4_amended_witness :
    ((solveModel cx4Input EngineStatus.OPTIMAL cx4X).shifts.countP
      (fun s => s.employeeId == 1 && s.dayIndex == 0
        && s.shiftType == "FULL")) ≤ 1 :=
  C4_amended_at_most_one_full_per_day cx4Input cx4X EngineStatus.OPTIMAL
    (by decide) (by decide) (by decide) 1 0

/-! ### Coverage of a result -/

/-- The AM coverage of a result at one `(shop, day)`: chosen AM and
AM_TRIMMED shifts, plus FULL shifts when FULL counts for both halves. -/
def amCoverageCount (shifts : List OutShift) (sid day : Nat)
    (fullCounts : Bool) : Nat :=
  shifts.countP (fun s => s.shopId == sid && s.dayIndex == day
      && s.shiftType == "AM")
    + shifts.countP (fun s => s.shopId == sid && s.dayIndex == day
      && s.shiftType == "AM_TRIMMED")
    + (if fullCounts then
        shifts.countP (fun s => s.shopId == sid && s.dayIndex == day
          && s.shiftType == "FULL")
      else 0)

/-- The PM coverage of a result at one `(shop, day)`: chosen PM shifts, plus
FULL shifts when FULL counts for both halves. -/
def pmCoverageCount (shifts : List OutShift) (sid day : Nat)
    (fullCounts : Bool) : Nat :=
  shifts.countP (fun s => s.shopId == sid && s.dayIndex == day
      && s.shiftType == "PM")
    + (if fullCounts then
        shifts.countP (fun s => s.shopId == sid && s.dayIndex == day
          && s.shiftType == "FULL")
      else 0)

theorem count_extract_type (input : SolverInput) (x : Nat → String → Bool)
    (sid day : Nat) (ty : String) :
    (extractShifts input x).countP
        (fun s => s.shopId == sid && s.dayIndex == day && s.shiftType == ty)
      = countTrue x (typeKeys input sid day ty) := by
  unfold extractShifts typeKeys countTrue
  rw [List.countP_filterMap, List.countP_filter]
  apply List.countP_congr
  intro k hk
  have hiff : ∀ a b : Bool, a = b → (a = true ↔ b = true) := by
    intro a b h; rw [h]
  apply hiff
  obtain ⟨emp, hfe⟩ := Option.isSome_iff_exists.1 (key_emp_found hk)
  by_cases hx : x k.1 k.2 = true
  · cases hft : findTemplate input k.2 with
    | none => simp [extractOne, hx, hft]
    | some t => simp [extractOne, hx, hft, hfe]
  · have hx' : x k.1 k.2 = false := by
      cases hval : x k.1 k.2
      · rfl
      · exact absurd hval hx
    simp [extractOne, hx']

theorem amCoverageCount_extract (input : SolverInput) (x : Nat → String → Bool)
    (d : DemandEntry) :
    amCoverageCount (extractShifts input x) d.shop_id d.day_index
        d.full_day_counts_as_both
      = countTrue x (amCovKeys input d) := by
  unfold amCoverageCount amCovKeys
  rw [count_extract_type, count_extract_type, count_extract_type]
  by_cases hfc : d.full_day_counts_as_both = true
  · rw [hfc]
    simp only [if_true]
    unfold countTrue
    rw [List.countP_append, List.countP_append]
    omega
  · have hfc' : d.full_day_counts_as_both = false := by
      cases hval : d.full_day_counts_as_both
      · rfl
      · exact absurd hval hfc
    rw [hfc']
    simp only [Bool.false_eq_true, if_false]
    unfold countTrue
    rw [List.countP_append]
    omega

theorem pmCoverageCount_extract (input : SolverInput) (x : Nat → String → Bool)
    (d : DemandEntry) :
    pmCoverageCount (extractShifts input x) d.shop_id d.day_index
        d.full_day_counts_as_both
      = countTrue x (pmCovKeys input d) := by
  unfold pmCoverageCount pmCovKeys
  rw [count_extract_type, count_extract_type]
  by_cases hfc : d.full_day_counts_as_both = true
  · rw [hfc]
    simp only [if_true]
    unfold countTrue
    rw [List.countP_append]
  · have hfc' : d.full_day_counts_as_both = false := by
      cases hval : d.full_day_counts_as_both
      · rfl
      · exact absurd hval hfc
    rw [hfc']
    simp only [Bool.false_eq_true, if_false]
    omega

/-- The minimum-staffing constraints `_add_coverage_constraints` enforces in
`split` mode and in flexible mode at non-solo shops. -/
theorem coverage_minima (input : SolverInput) (x : Nat → String → Bool)
    (hcov : coverageConstraintsHold input x = true)
    {d : DemandEntry} (hd : d ∈ input.demands)
    (hmode : d.coverage_mode = "split"
      ∨ (d.coverage_mode ≠ "split" ∧ d.coverage_mode ≠ "fullDayOnly"
          ∧ canBeSoloFor input d.shop_id = false)) :
    (amCovKeys input d ≠ [] → d.min_am ≤ countTrue x (amCovKeys input d))
      ∧ (pmCovKeys input d ≠ [] → d.min_pm ≤ countTrue x (pmCovKeys input d)) := by
  have hok := List.all_eq_true.1 hcov d hd
  simp only [coverageConstraintOk] at hok
  rw [Bool.and_eq_true] at hok
  have hmin := hok.1
  rcases hmode with hsplit | ⟨hns, hnf, hsolo⟩
  · rw [hsplit] at hmin
    rw [show (("split" : String) == "fullDayOnly") = false from rfl] at hmin
    rw [show (("split" : String) == "split") = true from rfl] at hmin
    simp only [Bool.false_eq_true, if_false, if_true, Bool.and_eq_true,
      Bool.or_eq_true, List.isEmpty_iff, decide_eq_true_eq, beq_iff_eq] at hmin
    constructor
    · intro hne
      rcases hmin.1 with (h | h) | h
      · exact absurd h hne
      · omega
      · exact h
    · intro hne
      rcases hmin.2 with (h | h) | h
      · exact absurd h hne
      · omega
      · exact h
  · have h1 : (d.coverage_mode == "fullDayOnly") = false := by
      rw [beq_eq_false_iff_ne]
      exact hnf
    have h2 : (d.coverage_mode == "split") = false := by
      rw [beq_eq_false_iff_ne]
      exact hns
    rw [h1, h2, hsolo] at hmin
    simp only [Bool.false_eq_true, if_false, Bool.and_eq_true,
      Bool.or_eq_true, List.isEmpty_iff, decide_eq_true_eq, beq_iff_eq] at hmin
    constructor
    · intro hne
      rcases hmin.1.1 with (h | h) | h
      · exact absurd h hne
      · omega
      · exact h
    · intro hne
      rcases hmin.1.2 with (h | h) | h
      · exact absurd h hne
      · omega
      · exact h

/-- C1 counterexample input: a `can_be_solo` shop in flexible mode whose
Monday staffing entry demands `minAM = 2`.  For solo shops the flexible
branch of `_add_coverage_constraints` only enforces `Σ x ≥ 1`, so a
valuation covering Monday with a single FULL shift is feasible. -/
def cx1ShopRaw : RawShop :=
  { id := some 1, name := some "Solo", company := none,
    openTime := some "08:00", closeTime := some "16:00",
    isActive := none, canBeSolo := some true, minStaffAtOpen := none,
    minStaffMidday := none, minStaffAtClose := none,
    requirements := [],
    trimming := none,
    sunday := some { closed := some true, maxStaff := none, customHours := none },
    specialShifts := [],
    staffingConfig := some
      { coverageMode := none,
        weeklySchedule := [
          { day := "mon", minAM := some 2, minPM := some 1,
            targetAM := none, targetPM := none, minFullDay := none,
            maxStaff := none, isMandatory := none }],
        rules := none, fullDayCountsAsBoth := none, neverBelowMinimum := none,
        minimumStaff := none } }

def cx1Emp : Employee :=
  { id := 1, name := "A", company := "CMZ", employment_type := "full-time",
    weekly_hours := 40, is_active := true, am_only := false,
    primary_shop_id := some 1, secondary_shop_ids := [] }

def cx1Input : SolverInput :=
  { employees := [cx1Emp],
    templates := buildTemplatesList [cx1ShopRaw],
    demands := buildDemandsFromConfig [cx1ShopRaw],
    assignments := [], leaveRequests := [], weekStart := 0,
    fixedDaysOff := [], specialDemands := [],
    shopConfigs := [(1, loadShopConfig cx1ShopRaw)] }

/-- The single employee works a FULL shift Monday through Saturday. -/
def cx1X : Nat → String → Bool := fun _ tid =>
  ["1_0_FULL", "1_1_FULL", "1_2_FULL", "1_3_FULL", "1_4_FULL",
    "1_5_FULL"].contains tid

/-- C1 counterexample: a feasible, successful result whose Monday demand has
`min_am = 2` (with FULL counting for both halves) but whose AM coverage on
Monday is only 1. -/
theorem C1_counterexample :
    modelFeasible cx1Input cx1X = true
      ∧ (solveModel cx1Input EngineStatus.FEASIBLE cx1X).success = true
      ∧ (cx1Input.demands.find? (fun d => d.day_index == 0)).map
          (fun d => (d.shop_id, d.min_am, d.full_day_counts_as_both,
            d.coverage_mode)) = some (1, 2, true, "flexible")
      ∧ amCoverageCount (solveModel cx1Input EngineStatus.FEASIBLE cx1X).shifts
          1 0 true = 1 := by
  refine ⟨by decide, by decide, by decide, by decide⟩

/-- C1 (amended): in every result returned with `success = true`, for every
demand entry whose minima the model actually enforces — `split` coverage
mode, or flexible mode at a shop that is not `can_be_solo` — and whose AM
(resp. PM) coverage variable list is non-empty, the AM (resp. PM) coverage
of the result is at least the demand's `min_am` (resp. `min_pm`). -/
theorem C1_amended_coverage_minima
    (input : SolverInput) (x : Nat → String → Bool) (st : EngineStatus)
    (hfeas : modelFeasible input x = true)
    (hsucc : (solveModel input st x).success = true)
    (d : DemandEntry) (hd : d ∈ input.demands)
    (hmode : d.coverage_mode = "split"
      ∨ (d.coverage_mode ≠ "split" ∧ d.coverage_mode ≠ "fullDayOnly"
          ∧ canBeSoloFor input d.shop_id = false)) :
    (amCovKeys input d ≠ [] →
        d.min_am ≤ amCoverageCount (solveModel input st x).shifts d.shop_id
          d.day_index d.full_day_counts_as_both)
      ∧ (pmCovKeys input d ≠ [] →
        d.min_pm ≤ pmCoverageCount (solveModel input st x).shifts d.shop_id
          d.day_index d.full_day_counts_as_both) := by
  rw [solveModel_success_shifts hsucc, amCoverageCount_extract,
    pmCoverageCount_extract]
  exact coverage_minima input x (modelFeasible_cov hfeas) hd hmode

/-- The Monday demand entry the builder produces for the C1/C2 witness shop. -/
def wtMonDemand : DemandEntry :=
  { shop_id := 1, shop_name := "Shop", day_index := 0, target_am := 1,
    target_pm := 1, min_am := 1, min_pm := 1, min_full_day := 0,
    max_staff := 10, allow_full_day := true, full_day_counts_as_both := true,
    is_mandatory := false, coverage_mode := "flexible" }

theorem C1_witness :
    wtMonDemand.min_am ≤ amCoverageCount
        (solveModel wtInput EngineStatus.OPTIMAL wtX).shifts 1 0 true
      ∧ wtMonDemand.min_pm ≤ pmCoverageCount
        (solveModel wtInput EngineStatus.OPTIMAL wtX).shifts 1 0 true :=
  ⟨(C1_amended_coverage_minima wtInput wtX EngineStatus.OPTIMAL (by decide)
      (by decide) wtMonDemand (by decide) (by decide)).1 (by decide),
    (C1_amended_coverage_minima wtInput wtX EngineStatus.OPTIMAL (by decide)
      (by decide) wtMonDemand (by decide) (by decide)).2 (by decide)⟩

/-! ### The trim pass: idempotence analysis -/

theorem map_snd_enumFrom {α : Type _} :
    ∀ (n : Nat) (l : List α), (List.enumFrom n l).map (fun p => p.2) = l := by
  intro n l
  induction l generalizing n with
  | nil => rfl
  | cons a t ih => simp [List.enumFrom, ih]

theorem map_snd_filter_snd {γ β : Type _} (r : β → Bool) :
    ∀ (X : List (γ × β)),
      (X.filter (fun p => r p.2)).map (fun p => p.2)
        = (X.map (fun p => p.2)).filter r := by
  intro X
  induction X with
  | nil => rfl
  | cons a t ih =>
    simp only [List.filter_cons, List.map_cons]
    cases hr : r a.2
    · simpa [hr] using ih
    · simpa [hr] using ih

theorem any_snd {γ β : Type _} (r : β → Bool) :
    ∀ (X : List (γ × β)), X.any (fun p => r p.2) = (X.map (fun p => p.2)).any r := by
  intro X
  induction X with
  | nil => rfl
  | cons a t ih => simp [ih]

theorem length_openers_enum (q r : OutShift → Bool) (l : List OutShift) :
    ((l.enum.filter (fun p => q p.2)).filter (fun p => r p.2)).length
      = ((l.filter q).filter r).length := by
  have h1 : ((l.enum.filter (fun p => q p.2)).filter (fun p => r p.2)).map
      (fun p => p.2) = (l.filter q).filter r := by
    rw [map_snd_filter_snd, map_snd_filter_snd]
    unfold List.enum
    rw [map_snd_enumFrom]
  calc ((l.enum.filter (fun p => q p.2)).filter (fun p => r p.2)).length
      = (((l.enum.filter (fun p => q p.2)).filter (fun p => r p.2)).map
          (fun p => p.2)).length := by rw [List.length_map]
    _ = ((l.filter q).filter r).length := by rw [h1]

theorem any_filter_enum (q r : OutShift → Bool) (l : List OutShift) :
    (l.enum.filter (fun p => q p.2)).any (fun p => r p.2) = (l.filter q).any r := by
  rw [any_snd, map_snd_filter_snd]
  unfold List.enum
  rw [map_snd_enumFrom]

theorem foldl_fixed {σ α : Type _} {f : σ → α → σ} {s : σ} :
    ∀ {l : List α}, (∀ k ∈ l, f s k = s) → l.foldl f s = s := by
  intro l
  induction l with
  | nil => intro _; rfl
  | cons a t ih =>
    intro h
    rw [List.foldl_cons, h a (List.mem_cons_self a t)]
    exact ih (fun k hk => h k (List.mem_cons_of_mem a hk))

theorem trimShopDay_id (a b : ℚ) (key : Nat × Nat)
    (shifts : List OutShift) (hours : List (Nat × ℚ))
    (hlen : ((shifts.filter (sameShopDate key)).filter isOpenerShift).length ≤ 1)
    (hfull : ((shifts.filter (sameShopDate key)).any isFullShift) = false) :
    trimShopDay a b key (shifts, hours) = (shifts, hours) := by
  simp only [trimShopDay]
  split
  · rfl
  · rename_i hcond
    exfalso
    apply hcond
    rw [Bool.not_eq_true']
    rw [Bool.or_eq_false_iff]
    constructor
    · rw [decide_eq_false_iff_not]
      rw [length_openers_enum (sameShopDate key) isOpenerShift shifts]
      omega
    · rw [any_filter_enum (sameShopDate key) isFullShift shifts]
      exact hfull

/-- If no `(shop, date)` group triggers trimming, `apply_trimming` returns
its input unchanged. -/
theorem applyTrimming_id (shifts : List OutShift) (hours : List (Nat × ℚ))
    (a b : ℚ) (h : noTrimTrigger shifts = true) :
    applyTrimming shifts hours a b = (shifts, hours) := by
  unfold applyTrimming
  by_cases hemp : (shifts.isEmpty : Bool) = true
  · rw [if_pos hemp]
  · rw [if_neg hemp]
    apply foldl_fixed
    intro key hkey
    have hkey' := List.all_eq_true.1 h key hkey
    simp only [Bool.and_eq_true, decide_eq_true_eq, Bool.not_eq_true'] at hkey'
    exact trimShopDay_id a b key shifts hours hkey'.1 hkey'.2

/-- C3 counterexample input: two AM shifts at one shop and date.  The first
pass trims the earliest opener; a second pass finds the group still
triggering (two AM openers) and trims again. -/
def cx3Shift1 : OutShift :=
  { employeeId := 1, employeeName := "A", shopId := 1, shopName := "S",
    date := 100, dayIndex := 0, shiftType := "AM", startTime := "08:00",
    endTime := "12:30", hours := mkRat 9 2, isTrimmed := false, company := "CMZ" }

def cx3Shift2 : OutShift := { cx3Shift1 with employeeId := 2, employeeName := "B" }

def cx3Hours : List (Nat × ℚ) := [(1, mkRat 9 2), (2, mkRat 9 2)]

/-- C3 counterexample: `apply_trimming` is not idempotent — the second
application trims the other opener of the same group again, changing start
times and hours. -/
theorem C3_counterexample :
    applyTrimming (applyTrimming [cx3Shift1, cx3Shift2] cx3Hours 1 2).1
        (applyTrimming [cx3Shift1, cx3Shift2] cx3Hours 1 2).2 1 2
      ≠ applyTrimming [cx3Shift1, cx3Shift2] cx3Hours 1 2 := by decide

/-- C3 (amended): `apply_trimming` is idempotent on inputs on which it is the
identity — those where no `(shop, date)` group triggers trimming (at most one
AM shift and no FULL shift per group); in general a second application trims
again. -/
theorem C3_amended_idempotent_no_trigger (shifts : List OutShift)
    (hours : List (Nat × ℚ)) (a b : ℚ) (h : noTrimTrigger shifts = true) :
    applyTrimming (applyTrimming shifts hours a b).1
        (applyTrimming shifts hours a b).2 a b
      = applyTrimming shifts hours a b := by
  rw [applyTrimming_id shifts hours a b h]
  exact applyTrimming_id shifts hours a b h

theorem C3_witness :
    noTrimTrigger [cx3Shift1] = true
      ∧ applyTrimming (applyTrimming [cx3Shift1] cx3Hours 1 2).1
          (applyTrimming [cx3Shift1] cx3Hours 1 2).2 1 2
        = applyTrimming [cx3Shift1] cx3Hours 1 2 :=
  ⟨by decide, C3_amended_idempotent_no_trigger [cx3Shift1] cx3Hours 1 2 (by decide)⟩

/-! ### Template-builder and demand-builder claims -/

theorem mem_buildTemplatesList {shops : List RawShop} {raw : RawShop}
    (hmem : raw ∈ shops) (hact : (loadShopConfig raw).is_active = true)
    {d : Nat} (hd : d < 7) {t : ShiftTemplate}
    (ht : t ∈ dayTemplatesFor (loadShopConfig raw) d) :
    t ∈ buildTemplatesList shops := by
  unfold buildTemplatesList
  rw [List.mem_flatMap]
  refine ⟨raw, hmem, ?_⟩
  simp only [hact, if_true]
  rw [List.mem_flatMap]
  exact ⟨d, List.mem_range.2 hd, ht⟩

theorem mem_buildDemands {shops : List RawShop} {raw : RawShop}
    (hmem : raw ∈ shops) (hact : (loadShopConfig raw).is_active = true)
    {d : Nat} (hd : d < 7) {e : DemandEntry}
    (he : demandFor (loadShopConfig raw) (coverageModeOf (loadShopConfig raw))
      (fullCountsOf (loadShopConfig raw)) d = some e) :
    e ∈ buildDemandsFromConfig shops := by
  unfold buildDemandsFromConfig
  rw [List.mem_flatMap]
  refine ⟨raw, hmem, ?_⟩
  simp only [hact, if_true]
  rw [List.mem_filterMap]
  exact ⟨d, List.mem_range.2 hd, he⟩

/-- C5 counterexample input: an active flexible shop open 08:00–13:00, so the
FULL window is 5 hours. -/
def cx5Shop : RawShop :=
  { id := some 1, name := some "ShortDay", company := none,
    openTime := some "08:00", closeTime := some "13:00",
    isActive := none, canBeSolo := none, minStaffAtOpen := none,
    minStaffMidday := none, minStaffAtClose := none,
    requirements := [], trimming := none, sunday := none,
    specialShifts := [], staffingConfig := none }

/-- C5 counterexample: the FULL duration is 5 hours (≤ 6), yet
`build_templates_from_config` still emits AM and PM templates for the day —
there is no short-day rule in the code. -/
theorem C5_counterexample :
    calculateHours (loadShopConfig cx5Shop).open_time
        (loadShopConfig cx5Shop).close_time = 5
      ∧ qLe (calculateHours (loadShopConfig cx5Shop).open_time
          (loadShopConfig cx5Shop).close_time) 6 = true
      ∧ (((buildTemplatesFromConfig [cx5Shop]).1.filter
          (fun t => t.day_index == 0)).map (fun t => t.shift_type))
        = ["AM", "PM", "FULL"] := by
  refine ⟨by decide, by decide, by decide⟩

/-- C5 (amended): the emitted template set is decided by the coverage mode
alone, not by the day length: a `fullDayOnly` shop emits exactly one FULL
template (and no AM or PM) on every open day. -/
theorem C5_amended_fullDayOnly_only_full
    (shops : List RawShop) (raw : RawShop) (hmem : raw ∈ shops)
    (hact : (loadShopConfig raw).is_active = true)
    (hmode : coverageModeOf (loadShopConfig raw) = "fullDayOnly")
    (d : Nat) (hd : d < 7)
    (hopen : d = 6 → (loadShopConfig raw).sunday.closed = false) :
    ((dayTemplatesFor (loadShopConfig raw) d).map (fun t => t.shift_type)
        = ["FULL"])
      ∧ ∀ t ∈ dayTemplatesFor (loadShopConfig raw) d,
          t ∈ (buildTemplatesFromConfig shops).1 := by
  have hskip : ((d == 6 : Bool) && (loadShopConfig raw).sunday.closed) = false := by
    by_cases h6 : d = 6
    · rw [hopen h6, Bool.and_false]
    · have h6' : (d == 6) = false := by
        rw [beq_eq_false_iff_ne]
        exact h6
      rw [h6', Bool.false_and]
  have hmode' : ((coverageModeOf (loadShopConfig raw)) == "fullDayOnly") = true := by
    rw [hmode]
    rfl
  constructor
  · unfold dayTemplatesFor
    rw [hskip]
    simp only [Bool.false_eq_true, if_false, hmode', if_true]
    simp [mkTemplate]
  · intro t ht
    exact mem_buildTemplatesList hmem hact hd ht

theorem C5_witness :
    ((dayTemplatesFor (loadShopConfig cx4ShopRaw) 0).map (fun t => t.shift_type)
        = ["FULL"])
      ∧ ∀ t ∈ dayTemplatesFor (loadShopConfig cx4ShopRaw) 0,
          t ∈ (buildTemplatesFromConfig [cx4ShopRaw]).1 :=
  C5_amended_fullDayOnly_only_full [cx4ShopRaw] cx4ShopRaw (by decide) (by decide)
    (by decide) 0 (by decide) (by decide)

/-- C6 counterexample input: an active flexible shop open 08:00–16:00, so the
midpoint is 12:00. -/
def cx6Shop : RawShop :=
  { id := some 1, name := some "Mid", company := none,
    openTime := some "08:00", closeTime := some "16:00",
    isActive := none, canBeSolo := none, minStaffAtOpen := none,
    minStaffMidday := none, minStaffAtClose := none,
    requirements := [], trimming := none, sunday := none,
    specialShifts := [], staffingConfig := none }

/-- C6 counterexample: the midpoint is 12:00, but the Monday AM template ends
at 12:30 and the PM template starts at 11:30 — a deliberate 30-minute
overlap, not the exact midpoint the claim states. -/
theorem C6_counterexample :
    formatTime (midpointOf (loadShopConfig cx6Shop)) = "12:00"
      ∧ (((buildTemplatesFromConfig [cx6Shop]).1.find?
          (fun t => t.day_index == 0 && t.shift_type == "AM")).map
            (fun t => t.end_time)) = some "12:30"
      ∧ (((buildTemplatesFromConfig [cx6Shop]).1.find?
          (fun t => t.day_index == 0 && t.shift_type == "PM")).map
            (fun t => t.start_time)) = some "11:30"
      ∧ (((buildTemplatesFromConfig [cx6Shop]).1.find?
          (fun t => t.day_index == 0 && t.shift_type == "AM")).map
            (fun t => t.end_time))
        ≠ some (formatTime (midpointOf (loadShopConfig cx6Shop))) := by
  refine ⟨by decide, by decide, by decide, by decide⟩

theorem strNeFullAm : ("FULL" : String) ≠ "AM" := by decide

theorem strNeFullPm : ("FULL" : String) ≠ "PM" := by decide

theorem strNeAmPm : ("AM" : String) ≠ "PM" := by decide

theorem strNePmAm : ("PM" : String) ≠ "AM" := by decide

theorem strNeTrimAm : ("AM_TRIMMED" : String) ≠ "AM" := by decide

theorem strNeTrimPm : ("AM_TRIMMED" : String) ≠ "PM" := by decide

/-- C6 (amended): on every open non-Sunday day of an active shop, the AM
template ends at `midpoint + 30` minutes and the PM template starts at
`midpoint − 30` minutes (a 30-minute overlap around the midpoint). -/
theorem C6_amended_overlap_around_midpoint
    (shops : List RawShop) (raw : RawShop) (hmem : raw ∈ shops)
    (hact : (loadShopConfig raw).is_active = true)
    (d : Nat) (hd : d < 6) (t : ShiftTemplate)
    (ht : t ∈ dayTemplatesFor (loadShopConfig raw) d) :
    t ∈ (buildTemplatesFromConfig shops).1
      ∧ (t.shift_type = "AM" →
          t.end_time = formatTime (midpointOf (loadShopConfig raw) + 30))
      ∧ (t.shift_type = "PM" →
          t.start_time = formatTime (midpointOf (loadShopConfig raw) - 30)) := by
  refine ⟨mem_buildTemplatesList hmem hact (by omega) ht, ?_⟩
  have h6 : (d == 6 : Bool) = false := by
    rw [beq_eq_false_iff_ne]
    omega
  unfold dayTemplatesFor at ht
  rw [h6] at ht
  simp only [Bool.false_and, Bool.false_eq_true, if_false] at ht
  split at ht
  · rw [List.mem_singleton] at ht
    subst ht
    exact ⟨fun hc => absurd hc strNeFullAm, fun hc => absurd hc strNeFullPm⟩
  · split at ht
    · rcases List.mem_append.1 ht with h | h
      · rcases List.mem_cons.1 h with rfl | h
        · exact ⟨fun _ => rfl, fun hc => absurd hc strNeAmPm⟩
        · rw [List.mem_singleton] at h
          subst h
          exact ⟨fun hc => absurd hc strNePmAm, fun _ => rfl⟩
      · split at h
        · split at h
          · rw [List.mem_singleton] at h
            subst h
            exact ⟨fun hc => absurd hc strNeTrimAm, fun hc => absurd hc strNeTrimPm⟩
          · exact absurd h (List.not_mem_nil t)
        · exact absurd h (List.not_mem_nil t)
    · rcases List.mem_append.1 ht with h | h
      · rcases List.mem_cons.1 h with rfl | h
        · exact ⟨fun _ => rfl, fun hc => absurd hc strNeAmPm⟩
        · rcases List.mem_cons.1 h with rfl | h
          · exact ⟨fun hc => absurd hc strNePmAm, fun _ => rfl⟩
          · rw [List.mem_singleton] at h
            subst h
            exact ⟨fun hc => absurd hc strNeFullAm, fun hc => absurd hc strNeFullPm⟩
      · split at h
        · split at h
          · rw [List.mem_singleton] at h
            subst h
            exact ⟨fun hc => absurd hc strNeTrimAm, fun hc => absurd hc strNeTrimPm⟩
          · exact absurd h (List.not_mem_nil t)
        · exact absurd h (List.not_mem_nil t)

theorem C6_witness :
    (mkTemplate (loadShopConfig cx6Shop) 0 "AM" "08:00" "12:30" false false)
        ∈ (buildTemplatesFromConfig [cx6Shop]).1
      ∧ ((mkTemplate (loadShopConfig cx6Shop) 0 "AM" "08:00" "12:30" false
          false).shift_type = "AM" →
        (mkTemplate (loadShopConfig cx6Shop) 0 "AM" "08:00" "12:30" false
          false).end_time
          = formatTime (midpointOf (loadShopConfig cx6Shop) + 30)) := by
  have h := C6_amended_overlap_around_midpoint [cx6Shop] cx6Shop (by decide)
    (by decide) 0 (by decide)
    (mkTemplate (loadShopConfig cx6Shop) 0 "AM" "08:00" "12:30" false false)
    (by decide)
  exact ⟨h.1, h.2.1⟩

/-- C7 counterexample input: an active shop with no staffing config and no
legacy requirements at all. -/
def cx7Shop : RawShop :=
  { id := some 1, name := some "Defaults", company := none,
    openTime := some "08:00", closeTime := some "16:00",
    isActive := none, canBeSolo := none, minStaffAtOpen := none,
    minStaffMidday := none, minStaffAtClose := none,
    requirements := [], trimming := none, sunday := none,
    specialShifts := [], staffingConfig := none }

/-- C7 counterexample: with no per-day staffing entry and no legacy
requirement, the Monday demand defaults to `min = 1, target = 1, max = 10` —
the default target is 1, not the claimed 2. -/
theorem C7_counterexample :
    dayCfgLookup (loadShopConfig cx7Shop) 0 = none
      ∧ dayReqLookup (loadShopConfig cx7Shop) 0 = none
      ∧ ((buildDemandsFromConfig [cx7Shop]).find? (fun e => e.day_index == 0)).map
          (fun e => (e.min_am, e.min_pm, e.target_am, e.target_pm, e.max_staff))
        = some (1, 1, 1, 1, 10)
      ∧ ((buildDemandsFromConfig [cx7Shop]).find? (fun e => e.day_index == 0)).map
          (fun e => e.target_am) ≠ some 2 := by
  refine ⟨by decide, by decide, by decide, by decide⟩

/-- C7 (amended): for every (active shop, open day) with no per-day staffing
entry and no legacy requirement, the produced demand entry has
`min_am = min_pm = 1`, `target_am = target_pm = 1` and `max_staff = 10`
(on Sunday these are further capped only when a Sunday `maxStaff` is set). -/
theorem C7_amended_defaults
    (shops : List RawShop) (raw : RawShop) (hmem : raw ∈ shops)
    (hact : (loadShopConfig raw).is_active = true)
    (d : Nat) (hd : d < 7)
    (hopen : d = 6 → (loadShopConfig raw).sunday.closed = false)
    (hnocfg : dayCfgLookup (loadShopConfig raw) d = none)
    (hnoreq : dayReqLookup (loadShopConfig raw) d = none)
    (hsun : d ≠ 6 ∨ (loadShopConfig raw).sunday.maxStaff = none) :
    ∃ e, demandFor (loadShopConfig raw) (coverageModeOf (loadShopConfig raw))
          (fullCountsOf (loadShopConfig raw)) d = some e
      ∧ e ∈ buildDemandsFromConfig shops
      ∧ e.min_am = 1 ∧ e.min_pm = 1 ∧ e.target_am = 1 ∧ e.target_pm = 1
      ∧ e.max_staff = 10 := by
  have hskip : ((d == 6 : Bool) && (loadShopConfig raw).sunday.closed) = false := by
    by_cases h6 : d = 6
    · rw [hopen h6, Bool.and_false]
    · have h6' : (d == 6) = false := by
        rw [beq_eq_false_iff_ne]
        exact h6
      rw [h6', Bool.false_and]
  have he : demandFor (loadShopConfig raw) (coverageModeOf (loadShopConfig raw))
      (fullCountsOf (loadShopConfig raw)) d
      = some
        { shop_id := (loadShopConfig raw).id
          shop_name := (loadShopConfig raw).name
          day_index := d
          target_am := 1
          target_pm := 1
          min_am := 1
          min_pm := 1
          min_full_day := 0
          max_staff := 10
          allow_full_day := !((coverageModeOf (loadShopConfig raw)) == "split")
          full_day_counts_as_both := fullCountsOf (loadShopConfig raw)
          is_mandatory := false
          coverage_mode := coverageModeOf (loadShopConfig raw) } := by
    unfold demandFor
    rw [hskip]
    simp only [Bool.false_eq_true, if_false, hnocfg, hnoreq]
    rcases hsun with h6 | hms
    · have h6' : (d == 6) = false := by
        rw [beq_eq_false_iff_ne]
        exact h6
      simp only [h6', Bool.false_eq_true, if_false]
    · by_cases h6 : (d == 6) = true
      · simp only [h6, if_true, hms]
      · have h6' : (d == 6) = false := by
          cases hval : (d == 6 : Bool)
          · rfl
          · exact absurd hval h6
        simp only [h6', Bool.false_eq_true, if_false]
  exact ⟨_, he, mem_buildDemands hmem hact hd he, rfl, rfl, rfl, rfl, rfl⟩

theorem C7_witness :
    ∃ e, demandFor (loadShopConfig cx7Shop) (coverageModeOf (loadShopConfig cx7Shop))
          (fullCountsOf (loadShopConfig cx7Shop)) 0 = some e
      ∧ e ∈ buildDemandsFromConfig [cx7Shop]
      ∧ e.min_am = 1 ∧ e.min_pm = 1 ∧ e.target_am = 1 ∧ e.target_pm = 1
      ∧ e.max_staff = 10 :=
  C7_amended_defaults [cx7Shop] cx7Shop (by decide) (by decide) 0 (by decide)
    (by decide) (by decide) (by decide) (by decide)

/-! ### Solve-driver claims -/

/-- C8: with at least one decision variable, `solve` reports success exactly
for the OPTIMAL and FEASIBLE engine statuses; any other status yields a
failure result carrying the engine's status name and an empty shifts list. -/
theorem C8_success_iff_optimal_or_feasible
    (input : SolverInput) (x : Nat → String → Bool) (st : EngineStatus)
    (hne : shiftVarKeys input ≠ []) :
    ((solveModel input st x).success = true
        ↔ (st = EngineStatus.OPTIMAL ∨ st = EngineStatus.FEASIBLE))
      ∧ (¬(st = EngineStatus.OPTIMAL ∨ st = EngineStatus.FEASIBLE) →
          (solveModel input st x).status = statusName st
            ∧ (solveModel input st x).shifts = []
            ∧ (solveModel input st x).employeeHours = []) := by
  have hemp : ¬((shiftVarKeys input).isEmpty = true) := by
    rw [List.isEmpty_iff]
    exact hne
  constructor
  · constructor
    · intro hs
      by_contra hB
      simp [solveModel, hemp, hB] at hs
    · intro hB
      simp [solveModel, hemp, hB]
  · intro hB
    refine ⟨?_, ?_, ?_⟩ <;> simp [solveModel, hemp, hB]

theorem C8_witness :
    (((solveModel wtInput EngineStatus.INFEASIBLE wtX).success = true
        ↔ (EngineStatus.INFEASIBLE = EngineStatus.OPTIMAL
            ∨ EngineStatus.INFEASIBLE = EngineStatus.FEASIBLE))
      ∧ (¬(EngineStatus.INFEASIBLE = EngineStatus.OPTIMAL
            ∨ EngineStatus.INFEASIBLE = EngineStatus.FEASIBLE) →
          (solveModel wtInput EngineStatus.INFEASIBLE wtX).status
              = statusName EngineStatus.INFEASIBLE
            ∧ (solveModel wtInput EngineStatus.INFEASIBLE wtX).shifts = []
            ∧ (solveModel wtInput EngineStatus.INFEASIBLE wtX).employeeHours = [])) :=
  C8_success_iff_optimal_or_feasible wtInput wtX EngineStatus.INFEASIBLE (by decide)

theorem solveModel_shifts_mem {input : SolverInput} {st : EngineStatus}
    {x : Nat → String → Bool} {s : OutShift}
    (hs : s ∈ (solveModel input st x).shifts) : s ∈ extractShifts input x := by
  by_cases hA : (shiftVarKeys input).isEmpty = true
  · simp [solveModel, hA] at hs
  · by_cases hB : st = EngineStatus.OPTIMAL ∨ st = EngineStatus.FEASIBLE
    · simpa [solveModel, hA, hB] using hs
    · simp [solveModel, hA, hB] at hs

/-- C9: an employee with any approved leave request gets no decision variable
for any template of the week (the constructor blocks all seven day indices,
whatever the request's dates), so no result contains a shift for them. -/
theorem C9_approved_leave_blocks_whole_week
    (input : SolverInput) (x : Nat → String → Bool) (st : EngineStatus)
    (e : Nat) (hday : ∀ t ∈ input.templates, t.day_index < 7)
    (hleave : ∃ lr ∈ input.leaveRequests,
      lr.employee_id = e ∧ lr.status = "approved") :
    (∀ tid, (e, tid) ∉ shiftVarKeys input)
      ∧ (solveModel input st x).shifts.filter (fun s => s.employeeId == e) = [] := by
  have honl : onApprovedLeave input e = true := by
    obtain ⟨lr, hmem, hid, hst⟩ := hleave
    unfold onApprovedLeave
    rw [List.any_eq_true]
    exact ⟨lr, hmem, by simp [hid, hst]⟩
  have hkeys : ∀ tid, (e, tid) ∉ shiftVarKeys input := fun tid hk =>
    eligiblePairs_leave hday honl tid (mem_shiftVarKeys.1 hk)
  refine ⟨hkeys, ?_⟩
  rw [List.filter_eq_nil_iff]
  intro s hs hPs
  have hs' := solveModel_shifts_mem hs
  obtain ⟨k, hk, hone⟩ := List.mem_filterMap.1 hs'
  obtain ⟨_, hsid, _⟩ := extractOne_eq_some hone
  rw [beq_iff_eq] at hPs
  have : (e, k.2) ∈ shiftVarKeys input := by
    have : k.1 = e := by rw [← hsid, hPs]
    rwa [← this]
  exact hkeys k.2 this

def cx9Emp : Employee :=
  { id := 1, name := "A", company := "CMZ", employment_type := "full-time",
    weekly_hours := 40, is_active := true, am_only := false,
    primary_shop_id := some 1, secondary_shop_ids := [] }

/-- C9 witness input: the employee's approved leave covers only one day of
the week by its dates, yet the whole week is blocked. -/
def cx9Input : SolverInput :=
  { employees := [cx9Emp],
    templates := buildTemplatesList [wtShopRaw],
    demands := buildDemandsFromConfig [wtShopRaw],
    assignments := [],
    leaveRequests := [
      { employee_id := 1, start_date := "2026-02-04", end_date := "2026-02-04",
        status := "approved" }],
    weekStart := 0, fixedDaysOff := [], specialDemands := [],
    shopConfigs := [(1, loadShopConfig wtShopRaw)] }

theorem C9_witness :
    (∀ tid, (1, tid) ∉ shiftVarKeys cx9Input)
      ∧ (solveModel cx9Input EngineStatus.OPTIMAL (fun _ _ => true)).shifts.filter
          (fun s => s.employeeId == 1) = [] :=
  C9_approved_leave_blocks_whole_week cx9Input (fun _ _ => true)
    EngineStatus.OPTIMAL 1 (by decide)
    ⟨{ employee_id := 1, start_date := "2026-02-04", end_date := "2026-02-04",
        status := "approved" }, by decide, rfl, rfl⟩

/-- C10: with no decision variable at all, `solve` short-circuits to a
failure result with status `NO_VARIABLES` — a value outside the output
contract's enumeration — with empty shifts and hours, independently of the
CP engine (its status never influences the result). -/
theorem C10_no_variables_short_circuit
    (input : SolverInput) (x : Nat → String → Bool) (st : EngineStatus)
    (h : shiftVarKeys input = []) :
    solveModel input st x =
        { success := false
          status := "NO_VARIABLES"
          shifts := []
          employeeHours := []
          message := "No employees can be assigned to any shifts. Check shop assignments." }
      ∧ (∀ st', solveModel input st x = solveModel input st' x)
      ∧ "NO_VARIABLES" ∉ ["OPTIMAL", "FEASIBLE", "INFEASIBLE", "ERROR"] := by
  have hemp : (shiftVarKeys input).isEmpty = true := by
    rw [List.isEmpty_iff]
    exact h
  refine ⟨by simp [solveModel, hemp], fun st' => by simp [solveModel, hemp],
    by decide⟩

/-- C10 witness input: no employees at all, hence no variables. -/
def cx10Input : SolverInput :=
  { employees := [],
    templates := buildTemplatesList [wtShopRaw],
    demands := buildDemandsFromConfig [wtShopRaw],
    assignments := [], leaveRequests := [], weekStart := 0,
    fixedDaysOff := [], specialDemands := [],
    shopConfigs := [(1, loadShopConfig wtShopRaw)] }

theorem C10_witness :
    solveModel cx10Input EngineStatus.INFEASIBLE (fun _ _ => false) =
        { success := false
          status := "NO_VARIABLES"
          shifts := []
          employeeHours := []
          message := "No employees can be assigned to any shifts. Check shop assignments." }
      ∧ (∀ st', solveModel cx10Input EngineStatus.INFEASIBLE (fun _ _ => false)
          = solveModel cx10Input st' (fun _ _ => false))
      ∧ "NO_VARIABLES" ∉ ["OPTIMAL", "FEASIBLE", "INFEASIBLE", "ERROR"] :=
  C10_no_variables_short_circuit cx10Input (fun _ _ => false)
    EngineStatus.INFEASIBLE (by decide)

end Roster
